import Mathlib

/-!
# The user store and the user service of `test2`

A shallow embedding of `internal/repository/user_repository.go`,
`internal/service/user_service.go`, `pkg/utils/validator.go`,
`internal/handler/user_handler.go` and the recovery interceptor of
`internal/middleware/logging.go`.

* The store `UserRepository` is a record of the map `users` and the counter
  `nextID`. Every method takes the store and returns the store it leaves
  behind together with the Go return values. The mutex `mu` has no sequential
  content and is left out, as is the `context.Context` argument, which no
  method reads.
* `int32` values are integers; the one operation that can leave the range,
  `r.nextID++`, and the counters of `List`, go through `wrapInt32`.
* A Go `error` is a `GoError`; `nil` is `none`. A `*users.User` that may be
  `nil` is an `Option User`.
* Go leaves the order of `range` over a map unspecified. The two methods that
  range over the map take the sequence the range yields as an argument `it`;
  `UserRepository.IsRange` says that `it` enumerates the stored records.
* Calls on the logger do not influence any returned value or the store and are
  left out; where the handler reads a field of a `nil` record to build the
  arguments of such a call, the panic is kept.
* The handler holds the service as a `UserServiceInterface`; its methods are
  functions of an implementation of that interface and of the state the
  implementation keeps. How a call ends is an `Exec`: it returns, or it panics.
-/

namespace Test2

/-! ## Machine integers -/

/-- Two's-complement wrap-around of an integer into the `int32` range. -/
def wrapInt32 (x : Int) : Int := (x + 2147483648) % 4294967296 - 2147483648

/-- The integer is a value of Go's `int32`. -/
def inInt32 (x : Int) : Prop := -2147483648 ≤ x ∧ x ≤ 2147483647

instance (x : Int) : Decidable (inInt32 x) := by unfold inInt32; infer_instance

/-! ## Records and errors -/

/-- Modelled from the spec: the message type `users.User` of the generated package
`test2/api/users`, which is not among the sources. The sources read and write the three
fields `Uid` (an `int32`, the key type of the store's map), `Name` (a `string`) and `Age`
(an `int32`); the spec's record has the same three: identifier, name, age. -/
structure User where
  Uid : Int
  Name : String
  Age : Int
deriving DecidableEq, Repr

/-- The slice type `[]*users.User`. -/
abbrev UserSlice := List User

/-- Go's `len(s)` of a string: the number of bytes of its UTF-8 encoding. -/
def len (s : String) : Int := s.utf8ByteSize

/-- A Go `error` built by `fmt.Errorf`: either from a format with no `%w` verb, which gives
an error with that text, or from a format `pfx%w` around another error. -/
inductive GoError where
  | errorf (msg : String)
  | wrapf (pfx : String) (err : GoError)
deriving DecidableEq, Repr

/-- The method `Error()`: the text of the error. -/
def GoError.Error : GoError → String
  | .errorf msg => msg
  | .wrapf pfx err => pfx ++ err.Error

/-- The error at the end of the `Unwrap` chain. -/
def GoError.cause : GoError → GoError
  | .errorf msg => .errorf msg
  | .wrapf _ err => err.cause

/-! ## The store (`internal/repository/user_repository.go`) -/

/-- The type `map[int32]*users.User`: a finite map with distinct keys. -/
abbrev UserMap := AList (fun _ : Int => User)

/-- The struct `UserRepository`. -/
structure UserRepository where
  users : UserMap
  nextID : Int

instance : DecidableEq UserRepository := fun a b =>
  decidable_of_iff
    (a.users.entries.map (fun e => (e.1, e.2)) = b.users.entries.map (fun e => (e.1, e.2)) ∧
      a.nextID = b.nextID)
    (by
      obtain ⟨⟨ea, _⟩, na⟩ := a
      obtain ⟨⟨eb, _⟩, nb⟩ := b
      have hinj : Function.Injective (fun e : (_ : Int) × User => (e.1, e.2)) := by
        rintro ⟨k, v⟩ ⟨k', v'⟩ h
        cases h
        rfl
      simp [hinj.list_map.eq_iff])

/-- The function `NewUserRepository`. -/
def NewUserRepository : UserRepository :=
  { users := ∅, nextID := 1 }

/-- The records stored in the map, in the order of the representation. -/
def UserRepository.records (r : UserRepository) : UserSlice :=
  r.users.entries.map (fun e => e.2)

/-- The sequence `it` is a possible result of `for _, user := range r.users`: it visits
every entry of the map once, in some order. -/
def UserRepository.IsRange (r : UserRepository) (it : UserSlice) : Prop :=
  it.Perm r.records

/-- The method `GetByID`. -/
def UserRepository.GetByID (r : UserRepository) (uid : Int) :
    UserRepository × Option User × Option GoError :=
  match r.users.lookup uid with
  | none => (r, none, none)
  | some user => (r, some { Uid := user.Uid, Name := user.Name, Age := user.Age }, none)

/-- The loop of `GetByName` over the records the range yields. -/
def UserRepository.GetByName.loop (name : String) : UserSlice → Option User
  | [] => none
  | user :: rest =>
    if user.Name = name then
      some { Uid := user.Uid, Name := user.Name, Age := user.Age }
    else
      UserRepository.GetByName.loop name rest

/-- The method `GetByName`; `it` is the sequence its range over the map yields. -/
def UserRepository.GetByName (r : UserRepository) (it : UserSlice) (name : String) :
    UserRepository × Option User × Option GoError :=
  (r, UserRepository.GetByName.loop name it, none)

/-- The method `Create`. The assignment `user.Uid = r.nextID` also overwrites the
identifier in the caller's record; no caller reads it afterwards. -/
def UserRepository.Create (r : UserRepository) (user : User) :
    UserRepository × Option User × Option GoError :=
  let uid := r.nextID
  let r1 : UserRepository := { r with nextID := wrapInt32 (r.nextID + 1) }
  let r2 : UserRepository :=
    { r1 with users := r1.users.insert uid { Uid := uid, Name := user.Name, Age := user.Age } }
  (r2, some { Uid := uid, Name := user.Name, Age := user.Age }, none)

/-- The method `Update`. -/
def UserRepository.Update (r : UserRepository) (user : User) :
    UserRepository × Option User × Option GoError :=
  match r.users.lookup user.Uid with
  | none => (r, none, some (.errorf "user not found"))
  | some _ =>
    let r1 : UserRepository :=
      { r with users :=
          r.users.insert user.Uid { Uid := user.Uid, Name := user.Name, Age := user.Age } }
    (r1, some { Uid := user.Uid, Name := user.Name, Age := user.Age }, none)

/-- The method `Delete`. -/
def UserRepository.Delete (r : UserRepository) (uid : Int) :
    UserRepository × Option GoError :=
  match r.users.lookup uid with
  | none => (r, some (.errorf "user not found"))
  | some _ => ({ r with users := r.users.erase uid }, none)

/-- The loop of `List` over the records the range yields, from the values `count` and
`userList` of its two variables; the result is `userList` when the loop ends. -/
def UserRepository.List.loop (limit offset : Int) :
    UserSlice → Int → UserSlice → UserSlice
  | [], _, userList => userList
  | user :: rest, count, userList =>
    if count < offset then
      UserRepository.List.loop limit offset rest (wrapInt32 (count + 1)) userList
    else if wrapInt32 userList.length ≥ limit then
      userList
    else
      UserRepository.List.loop limit offset rest count
        (userList ++ [{ Uid := user.Uid, Name := user.Name, Age := user.Age }])

/-- The method `List`; `it` is the sequence its range over the map yields. -/
def UserRepository.List (r : UserRepository) (it : UserSlice) (limit offset : Int) :
    UserRepository × UserSlice × Option GoError :=
  (r, UserRepository.List.loop limit offset it 0 [], none)

/-! ## The validator (`pkg/utils/validator.go`) -/

/-- The function `utils.ValidateAge`. -/
def ValidateAge (age : Int) : Option GoError :=
  if age < 0 ∨ age > 150 then some (.errorf "age must be between 0 and 150") else none

/-! ## The service (`internal/service/user_service.go`)

The struct `UserService` holds the store and the logger; its methods are functions of the
store. -/

/-- The method `validateUser`. -/
def UserService.validateUser (user : User) : Option GoError :=
  if user.Name = "" then some (.errorf "name is required")
  else if len user.Name > 100 then some (.errorf "name too long")
  else if user.Age < 0 ∨ user.Age > 150 then some (.errorf "invalid age")
  else none

/-- The method `GetUser`. -/
def UserService.GetUser (r : UserRepository) (uid : Int) :
    UserRepository × Option User × Option GoError :=
  match r.GetByID uid with
  | (r1, _, some err) => (r1, none, some (.wrapf "failed to get user: " err))
  | (r1, user, none) => (r1, user, none)

/-- The method `CreateUser`; `it` is the sequence the range of `GetByName` yields. -/
def UserService.CreateUser (r : UserRepository) (it : UserSlice) (user : User) :
    UserRepository × Option User × Option GoError :=
  match UserService.validateUser user with
  | some err => (r, none, some (.wrapf "user validation failed: " err))
  | none =>
    match r.GetByName it user.Name with
    | (r1, some _, none) =>
      (r1, none, some (.errorf ("user with name " ++ user.Name ++ " already exists")))
    | (r1, _, _) =>
      match r1.Create user with
      | (r2, _, some err) => (r2, none, some (.wrapf "failed to create user: " err))
      | (r2, createdUser, none) => (r2, createdUser, none)

/-- The method `UpdateUser`. -/
def UserService.UpdateUser (r : UserRepository) (user : User) :
    UserRepository × Option User × Option GoError :=
  match r.GetByID user.Uid with
  | (r1, _, some err) => (r1, none, some (.wrapf "failed to get user: " err))
  | (r1, none, none) => (r1, none, some (.errorf "user not found"))
  | (r1, some _, none) =>
    match UserService.validateUser user with
    | some err => (r1, none, some (.wrapf "user validation failed: " err))
    | none =>
      match r1.Update user with
      | (r2, _, some err) => (r2, none, some (.wrapf "failed to update user: " err))
      | (r2, updatedUser, none) => (r2, updatedUser, none)

/-- The method `DeleteUser`. -/
def UserService.DeleteUser (r : UserRepository) (uid : Int) :
    UserRepository × Option GoError :=
  match r.Delete uid with
  | (r1, some err) => (r1, some (.wrapf "failed to delete user: " err))
  | (r1, none) => (r1, none)

/-- The method `ListUsers`; `it` is the sequence the range of `List` yields. -/
def UserService.ListUsers (r : UserRepository) (it : UserSlice) (limit offset : Int) :
    UserRepository × UserSlice × Option GoError :=
  match r.List it limit offset with
  | (r1, _, some err) => (r1, [], some (.wrapf "failed to list users: " err))
  | (r1, userList, none) => (r1, userList, none)

/-! ## Runs of the service -/

/-- The identifiers a call of `CreateUser` made the store assign: the identifier of the
record it returns, when it returns one. -/
def assigned (res : UserRepository × Option User × Option GoError) : List Int :=
  match res.2.1 with
  | some createdUser => [createdUser.Uid]
  | none => []

/-- `ServiceReach r ids`: the store `r` is reached from the new store by calls of the
service, and `ids` are the identifiers assigned by the calls of `CreateUser` so far, the
latest first. Arguments of type `int32` are in range, and every range over the map
enumerates the stored records. -/
inductive ServiceReach : UserRepository → List Int → Prop where
  | init : ServiceReach NewUserRepository []
  | get {r : UserRepository} {ids : List Int} (uid : Int) :
      ServiceReach r ids → inInt32 uid → ServiceReach (UserService.GetUser r uid).1 ids
  | create {r : UserRepository} {ids : List Int} (it : UserSlice) (user : User) :
      ServiceReach r ids → r.IsRange it → inInt32 user.Uid → inInt32 user.Age →
      ServiceReach (UserService.CreateUser r it user).1
        (assigned (UserService.CreateUser r it user) ++ ids)
  | update {r : UserRepository} {ids : List Int} (user : User) :
      ServiceReach r ids → inInt32 user.Uid → inInt32 user.Age →
      ServiceReach (UserService.UpdateUser r user).1 ids
  | delete {r : UserRepository} {ids : List Int} (uid : Int) :
      ServiceReach r ids → inInt32 uid → ServiceReach (UserService.DeleteUser r uid).1 ids
  | list {r : UserRepository} {ids : List Int} (it : UserSlice) (limit offset : Int) :
      ServiceReach r ids → r.IsRange it → inInt32 limit → inInt32 offset →
      ServiceReach (UserService.ListUsers r it limit offset).1 ids

/-- The identifiers a run hands out when it creates `n` records: `n, ..., 2, 1`, wrapped
into `int32`. -/
def firstIds : Nat → List Int
  | 0 => []
  | n + 1 => wrapInt32 (1 + n) :: firstIds n

/-- The store after `CreateUser("alice", 30)`, `CreateUser("bob", 25)` and
`UpdateUser(1, "bob", 30)` on the new store. -/
def renamedStore : UserRepository :=
  (UserService.UpdateUser
    (UserService.CreateUser
      (UserService.CreateUser NewUserRepository [] { Uid := 0, Name := "alice", Age := 30 }).1
      [{ Uid := 1, Name := "alice", Age := 30 }] { Uid := 0, Name := "bob", Age := 25 }).1
    { Uid := 1, Name := "bob", Age := 30 }).1


/-! ## The error classes of the spec, read off the errors of the service -/

/-- A validation error: what `CreateUser` and `UpdateUser` return when `validateUser`
fails, an error `user validation failed: ...` around the error of `validateUser`. -/
def GoError.IsValidation (e : GoError) : Prop :=
  ∃ msg, e = .wrapf "user validation failed: " (.errorf msg)

/-- A conflict error: the error `user with name ... already exists` of `CreateUser`. -/
def GoError.IsConflict (e : GoError) : Prop :=
  ∃ name, e = .errorf ("user with name " ++ name ++ " already exists")

/-- A not-found error: the error `user not found` of the store or of `UpdateUser`, bare or
with the context the service wraps around it. -/
def GoError.IsNotFound (e : GoError) : Prop :=
  e.cause = .errorf "user not found"


/-! ## Runs of the store -/

/-- `StoreReach r n`: the store `r` is reached from the new store by calls of `Create`,
`Update` and `Delete`, `n` of them calls of `Create`. Arguments of type `int32` are in
range. -/
inductive StoreReach : UserRepository → Nat → Prop where
  | init : StoreReach NewUserRepository 0
  | create {r : UserRepository} {n : Nat} (user : User) :
      StoreReach r n → inInt32 user.Uid → inInt32 user.Age →
      StoreReach (r.Create user).1 (n + 1)
  | update {r : UserRepository} {n : Nat} (user : User) :
      StoreReach r n → inInt32 user.Uid → inInt32 user.Age →
      StoreReach (r.Update user).1 n
  | delete {r : UserRepository} {n : Nat} (uid : Int) :
      StoreReach r n → inInt32 uid → StoreReach (r.Delete uid).1 n


/-- `StoreSteps r0 r k`: the store `r` is reached from the store `r0` by calls of `Create`,
`Update` and `Delete`, `k` of them calls of `Create`. Arguments of type `int32` are in
range. -/
inductive StoreSteps (r0 : UserRepository) : UserRepository → Nat → Prop where
  | start : StoreSteps r0 r0 0
  | create {r : UserRepository} {k : Nat} (user : User) :
      StoreSteps r0 r k → inInt32 user.Uid → inInt32 user.Age →
      StoreSteps r0 (r.Create user).1 (k + 1)
  | update {r : UserRepository} {k : Nat} (user : User) :
      StoreSteps r0 r k → inInt32 user.Uid → inInt32 user.Age →
      StoreSteps r0 (r.Update user).1 k
  | delete {r : UserRepository} {k : Nat} (uid : Int) :
      StoreSteps r0 r k → inInt32 uid → StoreSteps r0 (r.Delete uid).1 k

/-! ## Sequences of service calls -/

/-- A call of the service. A call of `CreateUser` carries the sequence the range of its
`GetByName` yields. -/
inductive Call where
  | GetUser (uid : Int)
  | CreateUser (it : UserSlice) (user : User)
  | UpdateUser (user : User)
  | DeleteUser (uid : Int)

/-- What a call of the service returns: a record and an error, or an error alone. -/
inductive Reply where
  | record (user : Option User) (err : Option GoError)
  | done (err : Option GoError)
deriving DecidableEq, Repr

/-- One call of the service on the store `r`: the store it leaves and what it returns. -/
def UserService.call (r : UserRepository) : Call → UserRepository × Reply
  | .GetUser uid =>
    ((UserService.GetUser r uid).1,
      .record (UserService.GetUser r uid).2.1 (UserService.GetUser r uid).2.2)
  | .CreateUser it user =>
    ((UserService.CreateUser r it user).1,
      .record (UserService.CreateUser r it user).2.1 (UserService.CreateUser r it user).2.2)
  | .UpdateUser user =>
    ((UserService.UpdateUser r user).1,
      .record (UserService.UpdateUser r user).2.1 (UserService.UpdateUser r user).2.2)
  | .DeleteUser uid =>
    ((UserService.DeleteUser r uid).1, .done (UserService.DeleteUser r uid).2)

/-- The calls of a list made one after the other, from the store `r`: what they return, in
order. -/
def UserService.run (r : UserRepository) : List Call → List Reply
  | [] => []
  | c :: cs => (UserService.call r c).2 :: UserService.run (UserService.call r c).1 cs

/-! ## The handler (`internal/handler/user_handler.go`) -/

/-- The codes of `google.golang.org/grpc/codes` that the sources use. -/
inductive Code where
  | InvalidArgument
  | NotFound
  | Internal
deriving DecidableEq, Repr

/-- A status of `google.golang.org/grpc/status`: a code and a message. -/
structure Status where
  code : Code
  message : String
deriving DecidableEq, Repr

/-- An `error` at the gRPC boundary: a status error, or any other error. -/
inductive RpcError where
  | status (st : Status)
  | plain (err : GoError)
deriving DecidableEq, Repr

/-- The function `status.Error`. -/
def status.Error (c : Code) (msg : String) : RpcError :=
  .status { code := c, message := msg }

/-- How the execution of a call `func(...) (resp, err)` ends: it returns a response and an
error, either of which may be `nil`, or it panics. The payload of a panic is the value that
`recover()` returns, which is not `nil`. -/
inductive Exec (α : Type) where
  | returns (resp : Option α) (err : Option RpcError)
  | panics (payload : String)
deriving DecidableEq, Repr

/-- The interface `UserServiceInterface`, over whatever state `σ` an implementation keeps. -/
structure UserServiceInterface (σ : Type) where
  GetUser : σ → Int → σ × Option User × Option GoError
  CreateUser : σ → User → σ × Option User × Option GoError
  UpdateUser : σ → User → σ × Option User × Option GoError
  DeleteUser : σ → Int → σ × Option GoError
  ListUsers : σ → Int → Int → σ × UserSlice × Option GoError

/-- The function `NewUserService`: the service over the store as an implementation of the
interface; `it` is the sequence that a range over the map yields during the call. -/
def NewUserService (it : UserSlice) : UserServiceInterface UserRepository where
  GetUser := UserService.GetUser
  CreateUser := fun r user => UserService.CreateUser r it user
  UpdateUser := UserService.UpdateUser
  DeleteUser := UserService.DeleteUser
  ListUsers := fun r limit offset => UserService.ListUsers r it limit offset

/-- The method `Get` of the handler, over the service `svc` in the state `s`. -/
def UserHandler.Get {σ : Type} (svc : UserServiceInterface σ) (s : σ) (req : User) :
    σ × Exec User :=
  if req.Uid ≤ 0 then
    (s, .returns none (some (status.Error .InvalidArgument "invalid user id")))
  else
    match svc.GetUser s req.Uid with
    | (s1, _, some _) => (s1, .returns none (some (status.Error .Internal "failed to get user")))
    | (s1, none, none) => (s1, .returns none (some (status.Error .NotFound "user not found")))
    | (s1, some user, none) => (s1, .returns (some user) none)

/-- The method `CreateUser` of the handler. When the service returns neither a record nor
an error, the read of `user.Uid` for the log panics. -/
def UserHandler.CreateUser {σ : Type} (svc : UserServiceInterface σ) (s : σ) (req : User) :
    σ × Exec User :=
  if req.Name = "" then
    (s, .returns none (some (status.Error .InvalidArgument "name is required")))
  else
    match svc.CreateUser s req with
    | (s1, _, some _) =>
      (s1, .returns none (some (status.Error .Internal "failed to create user")))
    | (s1, none, none) => (s1, .panics "runtime error: invalid memory address or nil pointer dereference")
    | (s1, some user, none) => (s1, .returns (some user) none)

/-- The method `UpdateUser` of the handler. When the service returns neither a record nor
an error, the read of `user.Uid` for the log panics. -/
def UserHandler.UpdateUser {σ : Type} (svc : UserServiceInterface σ) (s : σ) (req : User) :
    σ × Exec User :=
  if req.Uid ≤ 0 then
    (s, .returns none (some (status.Error .InvalidArgument "invalid user id")))
  else
    match svc.UpdateUser s req with
    | (s1, _, some _) =>
      (s1, .returns none (some (status.Error .Internal "failed to update user")))
    | (s1, none, none) => (s1, .panics "runtime error: invalid memory address or nil pointer dereference")
    | (s1, some user, none) => (s1, .returns (some user) none)

/-- The three operations of the handler. -/
inductive HandlerOp where
  | Get
  | CreateUser
  | UpdateUser
deriving DecidableEq, Repr

/-- A call of the operation `op` of the handler. -/
def UserHandler.invoke {σ : Type} (op : HandlerOp) (svc : UserServiceInterface σ) (s : σ)
    (req : User) : σ × Exec User :=
  match op with
  | .Get => UserHandler.Get svc s req
  | .CreateUser => UserHandler.CreateUser svc s req
  | .UpdateUser => UserHandler.UpdateUser svc s req

/-- The message with which an operation of the handler reports an error of the service. -/
def UserHandler.internalMessage : HandlerOp → String
  | .Get => "failed to get user"
  | .CreateUser => "failed to create user"
  | .UpdateUser => "failed to update user"

/-! ## The recovery interceptor (`internal/middleware/logging.go`) -/

/-- The function `RecoveryInterceptor`: the interceptor it returns, applied to the request
`req` and the wrapped call `handler`. The body sets the named results `resp` and `err` to
what `handler` returns; the deferred function then asks `recover()` and, when the handler
panicked, sets `err` to the internal status error; the interceptor returns the named
results. -/
def RecoveryInterceptor {ρ α : Type} (req : ρ) (handler : ρ → Exec α) : Exec α :=
  let body : Option α × Option RpcError × Option String :=
    match handler req with
    | .returns resp err => (resp, err, none)
    | .panics payload => (none, none, some payload)
  match body with
  | (resp, _, some _) => .returns resp (some (status.Error .Internal "internal server error"))
  | (resp, err, none) => .returns resp err


/-! ## Auxiliary facts -/

theorem wrapInt32_eq_self {x : Int} (h : inInt32 x) : wrapInt32 x = x := by
  unfold inInt32 at h
  unfold wrapInt32
  omega

theorem wrapInt32_succ_wrapInt32 (x : Int) : wrapInt32 (wrapInt32 x + 1) = wrapInt32 (x + 1) := by
  unfold wrapInt32
  omega

theorem getByName_loop_eq_none {name : String} {it : UserSlice} :
    UserRepository.GetByName.loop name it = none ↔ ∀ v ∈ it, v.Name ≠ name := by
  induction it with
  | nil => simp [UserRepository.GetByName.loop]
  | cons user rest ih =>
    by_cases h : user.Name = name
    · simp [UserRepository.GetByName.loop, h]
    · simp [UserRepository.GetByName.loop, h, ih]

theorem mem_records_iff {r : UserRepository} {v : User} :
    v ∈ r.records ↔ ∃ k, r.users.lookup k = some v := by
  unfold UserRepository.records
  constructor
  · intro h
    obtain ⟨e, he, rfl⟩ := List.mem_map.1 h
    exact ⟨e.1, AList.mem_lookup_iff.2 he⟩
  · rintro ⟨k, hk⟩
    exact List.mem_map.2 ⟨⟨k, v⟩, AList.mem_lookup_iff.1 hk, rfl⟩

theorem isRange_mem_iff {r : UserRepository} {it : UserSlice} (h : r.IsRange it) (v : User) :
    v ∈ it ↔ v ∈ r.records :=
  List.Perm.mem_iff h

theorem createUser_of_invalid (r : UserRepository) (it : UserSlice) {user : User} {e : GoError}
    (h : UserService.validateUser user = some e) :
    UserService.CreateUser r it user = (r, none, some (.wrapf "user validation failed: " e)) := by
  simp [UserService.CreateUser, h]

theorem createUser_of_conflict (r : UserRepository) {it : UserSlice} {user w : User}
    (h : UserService.validateUser user = none)
    (hw : UserRepository.GetByName.loop user.Name it = some w) :
    UserService.CreateUser r it user =
      (r, none, some (.errorf ("user with name " ++ user.Name ++ " already exists"))) := by
  simp [UserService.CreateUser, h, UserRepository.GetByName, hw]

theorem createUser_of_fresh (r : UserRepository) {it : UserSlice} {user : User}
    (h : UserService.validateUser user = none)
    (hw : UserRepository.GetByName.loop user.Name it = none) :
    UserService.CreateUser r it user = r.Create user := by
  simp [UserService.CreateUser, h, UserRepository.GetByName, hw, UserRepository.Create]

theorem createUser_cases (r : UserRepository) (it : UserSlice) (user : User) :
    UserService.CreateUser r it user = r.Create user ∨
      ∃ e, UserService.CreateUser r it user = (r, none, some e) := by
  cases h : UserService.validateUser user with
  | some e => exact Or.inr ⟨_, createUser_of_invalid r it h⟩
  | none =>
    cases hw : UserRepository.GetByName.loop user.Name it with
    | some w => exact Or.inr ⟨_, createUser_of_conflict r h hw⟩
    | none => exact Or.inl (createUser_of_fresh r h hw)

theorem validateUser_eq_none {user : User} :
    UserService.validateUser user = none ↔
      user.Name ≠ "" ∧ len user.Name ≤ 100 ∧ 0 ≤ user.Age ∧ user.Age ≤ 150 := by
  unfold UserService.validateUser
  split_ifs <;> simp_all
  omega

theorem create_eq (r : UserRepository) (user : User) :
    r.Create user =
      ({ users := r.users.insert r.nextID { Uid := r.nextID, Name := user.Name, Age := user.Age },
         nextID := wrapInt32 (r.nextID + 1) },
       some { Uid := r.nextID, Name := user.Name, Age := user.Age }, none) := rfl

theorem getUser_repo (r : UserRepository) (uid : Int) : (UserService.GetUser r uid).1 = r := by
  unfold UserService.GetUser UserRepository.GetByID
  cases r.users.lookup uid <;> rfl

theorem listUsers_repo (r : UserRepository) (it : UserSlice) (limit offset : Int) :
    (UserService.ListUsers r it limit offset).1 = r := rfl

theorem update_of_absent {r : UserRepository} {user : User}
    (h : r.users.lookup user.Uid = none) :
    r.Update user = (r, none, some (.errorf "user not found")) := by
  simp [UserRepository.Update, h]

theorem update_of_present {r : UserRepository} {user v : User}
    (h : r.users.lookup user.Uid = some v) :
    r.Update user =
      ({ users := r.users.insert user.Uid { Uid := user.Uid, Name := user.Name, Age := user.Age },
         nextID := r.nextID },
       some { Uid := user.Uid, Name := user.Name, Age := user.Age }, none) := by
  simp [UserRepository.Update, h]

theorem delete_of_absent {r : UserRepository} {uid : Int} (h : r.users.lookup uid = none) :
    r.Delete uid = (r, some (.errorf "user not found")) := by
  simp [UserRepository.Delete, h]

theorem delete_of_present {r : UserRepository} {uid : Int} {v : User}
    (h : r.users.lookup uid = some v) :
    r.Delete uid = ({ users := r.users.erase uid, nextID := r.nextID }, none) := by
  simp [UserRepository.Delete, h]

theorem updateUser_of_absent {r : UserRepository} {user : User}
    (h : r.users.lookup user.Uid = none) :
    UserService.UpdateUser r user = (r, none, some (.errorf "user not found")) := by
  simp [UserService.UpdateUser, UserRepository.GetByID, h]

theorem updateUser_of_invalid {r : UserRepository} {user v : User} {e : GoError}
    (h : r.users.lookup user.Uid = some v) (he : UserService.validateUser user = some e) :
    UserService.UpdateUser r user =
      (r, none, some (.wrapf "user validation failed: " e)) := by
  simp [UserService.UpdateUser, UserRepository.GetByID, h, he]

theorem updateUser_of_valid {r : UserRepository} {user v : User}
    (h : r.users.lookup user.Uid = some v) (he : UserService.validateUser user = none) :
    UserService.UpdateUser r user = r.Update user := by
  simp [UserService.UpdateUser, UserRepository.GetByID, h, he, update_of_present h]

theorem deleteUser_of_absent {r : UserRepository} {uid : Int}
    (h : r.users.lookup uid = none) :
    UserService.DeleteUser r uid =
      (r, some (.wrapf "failed to delete user: " (.errorf "user not found"))) := by
  simp [UserService.DeleteUser, delete_of_absent h]

theorem deleteUser_of_present {r : UserRepository} {uid : Int} {v : User}
    (h : r.users.lookup uid = some v) :
    UserService.DeleteUser r uid = r.Delete uid := by
  simp [UserService.DeleteUser, delete_of_present h]

theorem updateUser_nextID (r : UserRepository) (user : User) :
    (UserService.UpdateUser r user).1.nextID = r.nextID := by
  cases h : r.users.lookup user.Uid with
  | none => rw [updateUser_of_absent h]
  | some v =>
    cases he : UserService.validateUser user with
    | some e => rw [updateUser_of_invalid h he]
    | none => rw [updateUser_of_valid h he, update_of_present h]

theorem deleteUser_nextID (r : UserRepository) (uid : Int) :
    (UserService.DeleteUser r uid).1.nextID = r.nextID := by
  cases h : r.users.lookup uid with
  | none => rw [deleteUser_of_absent h]
  | some v => rw [deleteUser_of_present h, delete_of_present h]

/-- Along every run of the service the counter is the wrapped successor of the number of
identifiers assigned, and the assigned identifiers are the wrapped numbers `1, 2, ...`. -/
theorem serviceReach_counter {r : UserRepository} {ids : List Int} (h : ServiceReach r ids) :
    r.nextID = wrapInt32 (1 + ids.length) ∧
      ∀ i ∈ ids, ∃ j : Nat, j < ids.length ∧ i = wrapInt32 (1 + j) := by
  induction h with
  | init => exact ⟨by decide, by simp⟩
  | get uid _ _ ih => rw [getUser_repo]; exact ih
  | list it limit offset _ _ _ _ ih => rw [listUsers_repo]; exact ih
  | update user _ _ _ ih => rw [updateUser_nextID]; exact ih
  | delete uid _ _ ih => rw [deleteUser_nextID]; exact ih
  | @create r ids it user _ _ _ _ ih =>
    rcases createUser_cases r it user with hc | ⟨e, hc⟩
    · rw [hc, create_eq]
      simp only [assigned, List.singleton_append, List.length_cons, List.mem_cons]
      refine ⟨?_, ?_⟩
      · rw [ih.1, wrapInt32_succ_wrapInt32]
        congr 1
      · rintro i (rfl | hi)
        · exact ⟨ids.length, by omega, ih.1⟩
        · obtain ⟨j, hj, hij⟩ := ih.2 i hi
          exact ⟨j, by omega, hij⟩
    · rw [hc]
      simpa [assigned] using ih

theorem wrapInt32_inInt32 (x : Int) : inInt32 (wrapInt32 x) := by
  unfold inInt32 wrapInt32
  omega

theorem getByID_of_present {r : UserRepository} {uid : Int} {v : User}
    (h : r.users.lookup uid = some v) : r.GetByID uid = (r, some v, none) := by
  simp [UserRepository.GetByID, h]

theorem getByID_of_absent {r : UserRepository} {uid : Int}
    (h : r.users.lookup uid = none) : r.GetByID uid = (r, none, none) := by
  simp [UserRepository.GetByID, h]

theorem firstIds_length (n : Nat) : (firstIds n).length = n := by
  induction n with
  | zero => rfl
  | succ n ih => simp [firstIds, ih]

theorem one_mem_firstIds {n : Nat} (h : 0 < n) : (1 : Int) ∈ firstIds n := by
  induction n with
  | zero => omega
  | succ n ih =>
    rcases Nat.eq_zero_or_pos n with rfl | hn
    · decide
    · exact List.mem_cons_of_mem _ (ih hn)

theorem erase_insert_empty (k : Int) (v : User) :
    ((∅ : UserMap).insert k v).erase k = ∅ := by
  apply AList.ext
  simp [AList.insert_empty, AList.erase, AList.singleton]

/-- Creating a record named `a` in an empty store and deleting it again leaves the store
empty with the counter moved one step. -/
theorem serviceReach_create_delete_step {c : Int} {ids : List Int} (hc : inInt32 c)
    (h : ServiceReach { users := ∅, nextID := c } ids) :
    ServiceReach { users := ∅, nextID := wrapInt32 (c + 1) } (c :: ids) := by
  have hv : UserService.validateUser { Uid := 0, Name := "a", Age := 0 } = none := by decide
  have h1 := ServiceReach.create [] { Uid := 0, Name := "a", Age := 0 } h
    (List.Perm.refl _) (by decide) (by decide)
  rw [@createUser_of_fresh _ [] _ hv rfl, create_eq] at h1
  have h2 := ServiceReach.delete c h1 hc
  have hl : (AList.insert c ({ Uid := c, Name := "a", Age := 0 } : User)
      (∅ : UserMap)).lookup c = some { Uid := c, Name := "a", Age := 0 } :=
    AList.lookup_insert _
  rw [deleteUser_of_present hl, delete_of_present hl] at h2
  simpa only [erase_insert_empty, assigned, List.singleton_append] using h2

/-- Creating a record named `a` and deleting it again, `n` times over, leaves the store
empty with the counter moved `n` steps. -/
theorem serviceReach_create_delete (n : Nat) :
    ServiceReach { users := ∅, nextID := wrapInt32 (1 + n) } (firstIds n) := by
  induction n with
  | zero => exact ServiceReach.init
  | succ n ih =>
    have h := serviceReach_create_delete_step (wrapInt32_inInt32 _) ih
    rw [wrapInt32_succ_wrapInt32] at h
    have hn : (1 : Int) + ((n + 1 : Nat) : Int) = 1 + (n : Int) + 1 := by push_cast; ring
    rw [hn]
    exact h

/-! ## C1: identifiers assigned by `CreateUser` -/

/-- C1 (as amended): in every store reached from the new store by calls of the service in
which fewer than 2^31 - 1 identifiers have been assigned so far, `CreateUser` of a record
with a non-empty name of length at most 100 that no stored record bears and an age in
0..150 succeeds; the record it returns carries the given name and age and an identifier
that is positive and strictly greater than every identifier assigned before, and `GetByID`
with that identifier then returns this same record. -/
theorem createUser_assigns_fresh_identifier (r : UserRepository) (ids : List Int)
    (hr : ServiceReach r ids) (hcount : ids.length < 2147483647)
    (it : UserSlice) (hit : r.IsRange it) (user : User)
    (hname : user.Name ≠ "") (hlen : len user.Name ≤ 100)
    (hfresh : ∀ v ∈ r.records, v.Name ≠ user.Name)
    (hage : 0 ≤ user.Age ∧ user.Age ≤ 150) :
    ∃ c : User,
      (UserService.CreateUser r it user).2 = (some c, none) ∧
      0 < c.Uid ∧ (∀ i ∈ ids, i < c.Uid) ∧ c.Name = user.Name ∧ c.Age = user.Age ∧
      ((UserService.CreateUser r it user).1.GetByID c.Uid).2 = (some c, none) := by
  have hv : UserService.validateUser user = none :=
    validateUser_eq_none.2 ⟨hname, hlen, hage.1, hage.2⟩
  have hw : UserRepository.GetByName.loop user.Name it = none :=
    getByName_loop_eq_none.2 fun v hv => hfresh v ((isRange_mem_iff hit v).1 hv)
  obtain ⟨hnext, hids⟩ := serviceReach_counter hr
  have hpos : r.nextID = 1 + (ids.length : Int) := by
    rw [hnext]
    exact wrapInt32_eq_self ⟨by omega, by omega⟩
  refine ⟨{ Uid := r.nextID, Name := user.Name, Age := user.Age }, ?_, ?_, ?_, rfl, rfl, ?_⟩
  · rw [createUser_of_fresh r hv hw, create_eq]
  · show 0 < r.nextID
    omega
  · intro i hi
    obtain ⟨j, hj, hij⟩ := hids i hi
    have hji : wrapInt32 (1 + (j : Int)) = 1 + (j : Int) :=
      wrapInt32_eq_self ⟨by omega, by omega⟩
    show i < r.nextID
    omega
  · rw [createUser_of_fresh r hv hw, create_eq]
    rw [getByID_of_present (AList.lookup_insert _)]

/-- C1 (witness): the amended statement at the store reached by creating `alice` and
deleting her again, for the record `bob`. -/
theorem createUser_assigns_fresh_identifier_witness :
    ∃ c : User,
      (UserService.CreateUser { users := ∅, nextID := 2 } []
        { Uid := 0, Name := "bob", Age := 25 }).2 = (some c, none) ∧
      0 < c.Uid ∧ (∀ i ∈ [(1 : Int)], i < c.Uid) ∧ c.Name = "bob" ∧ c.Age = 25 ∧
      ((UserService.CreateUser { users := ∅, nextID := 2 } []
        { Uid := 0, Name := "bob", Age := 25 }).1.GetByID c.Uid).2 = (some c, none) :=
  createUser_assigns_fresh_identifier { users := ∅, nextID := 2 } [1]
    (serviceReach_create_delete 1) (by decide) [] (List.Perm.refl _)
    { Uid := 0, Name := "bob", Age := 25 } (by decide) (by decide) (by simp [UserRepository.records])
    (by decide)

/-- C1 (counterexample): the empty store whose counter stands at -2147483648 is reached by
2147483647 rounds of creating and deleting a record, which assign the identifiers
1, ..., 2147483647. There `CreateUser` of the valid record `a`, whose name no stored
record bears, returns a record with the identifier -2147483648: it is not positive and it
is smaller than the identifier 1 assigned before. -/
theorem createUser_identifier_counterexample :
    ServiceReach { users := ∅, nextID := -2147483648 } (firstIds 2147483647) ∧
      (1 : Int) ∈ firstIds 2147483647 ∧
      UserRepository.IsRange { users := ∅, nextID := -2147483648 } [] ∧
      UserService.validateUser { Uid := 0, Name := "a", Age := 0 } = none ∧
      (∀ v ∈ UserRepository.records { users := ∅, nextID := -2147483648 }, v.Name ≠ "a") ∧
      (UserService.CreateUser { users := ∅, nextID := -2147483648 } []
        { Uid := 0, Name := "a", Age := 0 }).2
        = (some { Uid := -2147483648, Name := "a", Age := 0 }, none) ∧
      ¬ ((0 : Int) < -2147483648) ∧ ¬ ((1 : Int) < -2147483648) := by
  refine ⟨?_, one_mem_firstIds (by decide), List.Perm.refl _, by decide, by simp [UserRepository.records],
    by decide, by decide, by decide⟩
  have h := serviceReach_create_delete 2147483647
  have hw : wrapInt32 (1 + ((2147483647 : Nat) : Int)) = -2147483648 := by decide
  rw [hw] at h
  exact h

/-! ## C2: names of stored records -/

/-- C2 (the code at the failing input): the run `CreateUser("alice", 30)`,
`CreateUser("bob", 25)`, `UpdateUser(1, "bob", 30)` from the new store succeeds at every
step, and the store it reaches holds two records named `bob`, under the identifiers 1
and 2: `UpdateUser` does not look for another record with the new name. -/
theorem updateUser_duplicates_name :
    ServiceReach renamedStore [2, 1] ∧
      (UserService.UpdateUser
        (UserService.CreateUser
          (UserService.CreateUser NewUserRepository [] { Uid := 0, Name := "alice", Age := 30 }).1
          [{ Uid := 1, Name := "alice", Age := 30 }] { Uid := 0, Name := "bob", Age := 25 }).1
        { Uid := 1, Name := "bob", Age := 30 }).2
        = (some { Uid := 1, Name := "bob", Age := 30 }, none) ∧
      renamedStore.users.lookup 1 = some { Uid := 1, Name := "bob", Age := 30 } ∧
      renamedStore.users.lookup 2 = some { Uid := 2, Name := "bob", Age := 25 } := by
  refine ⟨?_, by decide, by decide, by decide⟩
  exact ServiceReach.update { Uid := 1, Name := "bob", Age := 30 }
    (ServiceReach.create [{ Uid := 1, Name := "alice", Age := 30 }]
      { Uid := 0, Name := "bob", Age := 25 }
      (ServiceReach.create [] { Uid := 0, Name := "alice", Age := 30 } ServiceReach.init
        (List.Perm.refl _) (by decide) (by decide))
      (List.Perm.refl _) (by decide) (by decide))
    (by decide) (by decide)

theorem validateUser_errorf {user : User} {e : GoError}
    (h : UserService.validateUser user = some e) : ∃ msg, e = .errorf msg := by
  unfold UserService.validateUser at h
  split_ifs at h <;> exact ⟨_, (Option.some.inj h).symm⟩

theorem validateUser_of_age {user : User} (h : user.Age < 0 ∨ user.Age > 150) :
    ∃ msg, UserService.validateUser user = some (.errorf msg) := by
  cases hv : UserService.validateUser user with
  | some e =>
    obtain ⟨msg, rfl⟩ := validateUser_errorf hv
    exact ⟨msg, rfl⟩
  | none =>
    have := validateUser_eq_none.1 hv
    omega

/-! ## C3: a second record of the same name -/

/-- C3: in every store that holds a record named `n`, `CreateUser` of a record named `n`
that passes the field checks (non-empty name of length at most 100, age in 0..150) returns
no record and the conflict error `user with name n already exists`, and the store it
leaves is the store it found, records and counter alike; so a record bears the name `n`
afterwards exactly when it did before. -/
theorem createUser_conflict (r : UserRepository) (it : UserSlice) (hit : r.IsRange it)
    (user : User) (hname : user.Name ≠ "") (hlen : len user.Name ≤ 100)
    (hage : 0 ≤ user.Age ∧ user.Age ≤ 150)
    (hstored : ∃ v ∈ r.records, v.Name = user.Name) :
    UserService.CreateUser r it user =
        (r, none, some (.errorf ("user with name " ++ user.Name ++ " already exists"))) ∧
      (GoError.errorf ("user with name " ++ user.Name ++ " already exists")).IsConflict ∧
      (UserService.CreateUser r it user).1.nextID = r.nextID ∧
      ∀ k v, v.Name = user.Name →
        ((UserService.CreateUser r it user).1.users.lookup k = some v ↔
          r.users.lookup k = some v) := by
  have hv : UserService.validateUser user = none :=
    validateUser_eq_none.2 ⟨hname, hlen, hage.1, hage.2⟩
  obtain ⟨v, hvr, hvn⟩ := hstored
  have hw : ∃ w, UserRepository.GetByName.loop user.Name it = some w := by
    cases hl : UserRepository.GetByName.loop user.Name it with
    | some w => exact ⟨w, rfl⟩
    | none => exact absurd hvn (getByName_loop_eq_none.1 hl v ((isRange_mem_iff hit v).2 hvr))
  obtain ⟨w, hw⟩ := hw
  rw [createUser_of_conflict r hv hw]
  exact ⟨rfl, ⟨_, rfl⟩, rfl, fun _ _ _ => Iff.rfl⟩

/-- C3 (witness): the store that holds `alice` under the identifier 1, and a second record
named `alice`. -/
theorem createUser_conflict_witness :
    UserService.CreateUser
        { users := AList.singleton 1 { Uid := 1, Name := "alice", Age := 30 }, nextID := 2 }
        [{ Uid := 1, Name := "alice", Age := 30 }] { Uid := 0, Name := "alice", Age := 40 } =
      ({ users := AList.singleton 1 { Uid := 1, Name := "alice", Age := 30 }, nextID := 2 },
        none, some (.errorf ("user with name " ++ "alice" ++ " already exists"))) :=
  (createUser_conflict
    { users := AList.singleton 1 { Uid := 1, Name := "alice", Age := 30 }, nextID := 2 }
    [{ Uid := 1, Name := "alice", Age := 30 }] (List.Perm.refl _)
    { Uid := 0, Name := "alice", Age := 40 } (by decide) (by decide) (by decide)
    ⟨{ Uid := 1, Name := "alice", Age := 30 }, by simp [UserRepository.records, AList.singleton],
      rfl⟩).1

/-! ## C4: ages out of range -/

/-- C4 (as amended): for every store and every record whose age is below 0 or above 150,
`CreateUser` returns no record and a validation error and leaves the store as it found it;
`UpdateUser` does the same when the identifier of the record is a key of the store, and
when it is not a key it returns the error `user not found` instead, again leaving the
store as it found it. -/
theorem invalid_age_rejected (r : UserRepository) (it : UserSlice) (user : User)
    (hage : user.Age < 0 ∨ user.Age > 150) :
    (∃ e, UserService.CreateUser r it user = (r, none, some e) ∧ e.IsValidation) ∧
      (r.users.lookup user.Uid ≠ none →
        ∃ e, UserService.UpdateUser r user = (r, none, some e) ∧ e.IsValidation) ∧
      (r.users.lookup user.Uid = none →
        UserService.UpdateUser r user = (r, none, some (.errorf "user not found"))) := by
  obtain ⟨msg, hv⟩ := validateUser_of_age hage
  refine ⟨⟨_, createUser_of_invalid r it hv, msg, rfl⟩, ?_, updateUser_of_absent⟩
  intro hk
  obtain ⟨v, hl⟩ := Option.ne_none_iff_exists'.1 hk
  exact ⟨_, updateUser_of_invalid hl hv, msg, rfl⟩

/-- C4 (witness): the age 200, in the new store. -/
theorem invalid_age_rejected_witness :
    UserService.UpdateUser NewUserRepository { Uid := 1, Name := "alice", Age := 200 } =
      (NewUserRepository, none, some (.errorf "user not found")) :=
  (invalid_age_rejected NewUserRepository [] { Uid := 1, Name := "alice", Age := 200 }
    (by decide)).2.2 (by decide)

/-- C4 (counterexample): in the new store `UpdateUser` of the record with identifier 1,
name `alice` and age 200 fails with the error `user not found`, which is not a validation
error: the lookup of the identifier comes before the field checks. -/
theorem updateUser_invalid_age_counterexample :
    (200 : Int) > 150 ∧
      UserService.UpdateUser NewUserRepository { Uid := 1, Name := "alice", Age := 200 } =
        (NewUserRepository, none, some (.errorf "user not found")) ∧
      ¬ (GoError.errorf "user not found").IsValidation := by
  refine ⟨by decide, by decide, ?_⟩
  rintro ⟨msg, h⟩
  cases h

/-! ## C5: update and delete of an identifier that is not stored -/

/-- C5: for every store and every record whose identifier is not a key of the store,
`Update` and `UpdateUser` of the record return no record and the error `user not found`,
`Delete` of the identifier returns the error `user not found` and `DeleteUser` returns
that error with the context `failed to delete user: ` around it; these are not-found
errors, and each of the four calls leaves the store, records and counter, as it found
it. -/
theorem update_delete_not_found (r : UserRepository) (user : User)
    (h : r.users.lookup user.Uid = none) :
    r.Update user = (r, none, some (.errorf "user not found")) ∧
      UserService.UpdateUser r user = (r, none, some (.errorf "user not found")) ∧
      r.Delete user.Uid = (r, some (.errorf "user not found")) ∧
      UserService.DeleteUser r user.Uid =
        (r, some (.wrapf "failed to delete user: " (.errorf "user not found"))) ∧
      (GoError.errorf "user not found").IsNotFound ∧
      (GoError.wrapf "failed to delete user: " (.errorf "user not found")).IsNotFound :=
  ⟨update_of_absent h, updateUser_of_absent h, delete_of_absent h, deleteUser_of_absent h,
    rfl, rfl⟩

/-- C5 (witness): the identifier 7 in the store that holds `alice` under the
identifier 1. -/
theorem update_delete_not_found_witness :
    UserService.DeleteUser
        { users := AList.singleton 1 { Uid := 1, Name := "alice", Age := 30 }, nextID := 2 } 7 =
      ({ users := AList.singleton 1 { Uid := 1, Name := "alice", Age := 30 }, nextID := 2 },
        some (.wrapf "failed to delete user: " (.errorf "user not found"))) :=
  (update_delete_not_found
    { users := AList.singleton 1 { Uid := 1, Name := "alice", Age := 30 }, nextID := 2 }
    { Uid := 7, Name := "bob", Age := 25 } (by decide)).2.2.2.1

/-! ## C6: the field checks -/

/-- C6 (as amended): `validateUser` accepts a record exactly when its name is non-empty
and at most 100 bytes long in UTF-8, which is what `len` counts, and its age is between 0
and 150 inclusive; every other record it rejects with an error; and `ValidateAge` fails
exactly when the age is below 0 or above 150. -/
theorem validateUser_accepts_iff (user : User) (age : Int) :
    (UserService.validateUser user = none ↔
        user.Name ≠ "" ∧ user.Name.utf8ByteSize ≤ 100 ∧ 0 ≤ user.Age ∧ user.Age ≤ 150) ∧
      (UserService.validateUser user ≠ none →
        ∃ msg, UserService.validateUser user = some (.errorf msg) ∧
          (GoError.wrapf "user validation failed: " (.errorf msg)).IsValidation) ∧
      (ValidateAge age ≠ none ↔ age < 0 ∨ age > 150) := by
  refine ⟨?_, ?_, ?_⟩
  · rw [validateUser_eq_none]
    unfold len
    constructor <;> rintro ⟨h1, h2, h3, h4⟩ <;> exact ⟨h1, by omega, h3, h4⟩
  · intro hne
    obtain ⟨e, he⟩ := Option.ne_none_iff_exists'.1 hne
    obtain ⟨msg, rfl⟩ := validateUser_errorf he
    exact ⟨msg, he, msg, rfl⟩
  · unfold ValidateAge
    split_ifs with h <;> simp [h]

/-- C6 (counterexample): the name of 51 letters `é` is non-empty and 51 characters long,
and the age 30 is in range, yet `validateUser` rejects the record with `name too long`:
in UTF-8 the name takes 102 bytes. -/
theorem validateUser_characters_counterexample :
    String.mk (List.replicate 51 'é') ≠ "" ∧
      (String.mk (List.replicate 51 'é')).length = 51 ∧
      (String.mk (List.replicate 51 'é')).utf8ByteSize = 102 ∧
      UserService.validateUser { Uid := 0, Name := String.mk (List.replicate 51 'é'), Age := 30 } =
        some (.errorf "name too long") := by
  refine ⟨by decide, by decide, by decide, by decide⟩

/-! ## C7: `List` -/

theorem list_loop_collect (limit offset : Int) (hl : limit ≤ 2147483647) (it : UserSlice) :
    ∀ userList : UserSlice, (userList.length : Int) ≤ limit →
      UserRepository.List.loop limit offset it offset userList =
        userList ++ it.take (limit - userList.length).toNat := by
  induction it with
  | nil => intro userList _; simp [UserRepository.List.loop]
  | cons user rest ih =>
    intro userList hlen
    have hw : wrapInt32 (userList.length : Int) = userList.length :=
      wrapInt32_eq_self ⟨by omega, by omega⟩
    rw [UserRepository.List.loop, if_neg (lt_irrefl offset), hw]
    by_cases hfull : (userList.length : Int) ≥ limit
    · rw [if_pos hfull]
      have h0 : (limit - (userList.length : Int)).toNat = 0 := by omega
      simp [h0]
    · rw [if_neg hfull, ih _ (by simp only [List.length_append, List.length_singleton]; omega)]
      have h1 : (limit - (userList.length : Int)).toNat =
          (limit - ((userList ++ [user]).length : Int)).toNat + 1 := by
        simp only [List.length_append, List.length_singleton]
        omega
      rw [h1]
      simp

theorem list_loop_skip (limit offset : Int) (ho : offset ≤ 2147483647) (it : UserSlice) :
    ∀ (count : Int) (userList : UserSlice), -2147483648 ≤ count → count ≤ offset →
      UserRepository.List.loop limit offset it count userList =
        UserRepository.List.loop limit offset (it.drop (offset - count).toNat) offset
          userList := by
  induction it with
  | nil => intro count userList _ _; simp [UserRepository.List.loop]
  | cons user rest ih =>
    intro count userList hlo hle
    by_cases hc : count < offset
    · have hw : wrapInt32 (count + 1) = count + 1 := wrapInt32_eq_self ⟨by omega, by omega⟩
      rw [UserRepository.List.loop, if_pos hc, hw, ih _ _ (by omega) (by omega)]
      have h1 : (offset - count).toNat = (offset - (count + 1)).toNat + 1 := by omega
      rw [h1, List.drop_succ_cons]
    · have h0 : offset - count = 0 := by omega
      have hco : count = offset := by omega
      rw [h0, hco]
      rfl

/-- C7: for every store, every sequence `it` the range over its map yields, and all
non-negative `int32` values `limit` and `offset`, `List` returns no error, leaves the
store as it found it, and returns the records of `it` from position `offset` on, at most
`limit` of them: `take limit (drop offset it)`. So the result is never longer than
`limit`, it is empty when `limit` is zero, and it is empty when `offset` is the number of
records or more. -/
theorem list_eq_take_drop (r : UserRepository) (it : UserSlice) (limit offset : Int)
    (hl : 0 ≤ limit) (ho : 0 ≤ offset) (hl32 : inInt32 limit) (ho32 : inInt32 offset) :
    r.List it limit offset = (r, (it.drop offset.toNat).take limit.toNat, none) ∧
      ((r.List it limit offset).2.1.length : Int) ≤ limit ∧
      (limit = 0 → (r.List it limit offset).2.1 = []) ∧
      ((it.length : Int) ≤ offset → (r.List it limit offset).2.1 = []) := by
  have heq : r.List it limit offset = (r, (it.drop offset.toNat).take limit.toNat, none) := by
    unfold UserRepository.List
    rw [list_loop_skip limit offset ho32.2 it 0 [] (by omega) ho,
      list_loop_collect limit offset hl32.2 _ [] (by simpa using hl)]
    simp
  rw [heq]
  refine ⟨rfl, ?_, ?_, ?_⟩
  · simp only [List.length_take, List.length_drop]
    omega
  · intro h0
    simp [h0]
  · intro hlen
    have : it.drop offset.toNat = [] := List.drop_eq_nil_of_le (by omega)
    simp [this]

/-- C7 (witness): the store of three records, ranged over in the order 3, 1, 2, with
`limit` 1 and `offset` 1. -/
theorem list_eq_take_drop_witness :
    UserRepository.List
        { users := ((AList.singleton 1 { Uid := 1, Name := "a", Age := 1 }).insert 2
            { Uid := 2, Name := "b", Age := 2 }).insert 3 { Uid := 3, Name := "c", Age := 3 },
          nextID := 4 }
        [{ Uid := 3, Name := "c", Age := 3 }, { Uid := 1, Name := "a", Age := 1 },
          { Uid := 2, Name := "b", Age := 2 }] 1 1 =
      ({ users := ((AList.singleton 1 { Uid := 1, Name := "a", Age := 1 }).insert 2
            { Uid := 2, Name := "b", Age := 2 }).insert 3 { Uid := 3, Name := "c", Age := 3 },
          nextID := 4 },
        [{ Uid := 1, Name := "a", Age := 1 }], none) :=
  (list_eq_take_drop
    { users := ((AList.singleton 1 { Uid := 1, Name := "a", Age := 1 }).insert 2
            { Uid := 2, Name := "b", Age := 2 }).insert 3 { Uid := 3, Name := "c", Age := 3 },
          nextID := 4 }
    [{ Uid := 3, Name := "c", Age := 3 }, { Uid := 1, Name := "a", Age := 1 },
      { Uid := 2, Name := "b", Age := 2 }] 1 1 (by decide) (by decide) (by decide)
    (by decide)).1

/-! ## C8: `Create` -/

theorem update_nextID (r : UserRepository) (user : User) :
    (r.Update user).1.nextID = r.nextID := by
  cases h : r.users.lookup user.Uid with
  | none => rw [update_of_absent h]
  | some v => rw [update_of_present h]

theorem delete_nextID (r : UserRepository) (uid : Int) :
    (r.Delete uid).1.nextID = r.nextID := by
  cases h : r.users.lookup uid with
  | none => rw [delete_of_absent h]
  | some v => rw [delete_of_present h]

/-- Along every run of the store the counter is the wrapped successor of the number of
calls of `Create`. -/
theorem storeReach_counter {r : UserRepository} {n : Nat} (h : StoreReach r n) :
    r.nextID = wrapInt32 (1 + n) := by
  induction h with
  | init => decide
  | update user _ _ _ ih => rw [update_nextID]; exact ih
  | delete uid _ _ ih => rw [delete_nextID]; exact ih
  | @create r n user _ _ _ ih =>
    rw [create_eq]
    show wrapInt32 (r.nextID + 1) = _
    rw [ih, wrapInt32_succ_wrapInt32]
    congr 1

/-- Creating a record in an empty store and deleting it again leaves the store empty with
the counter moved one step. -/
theorem storeReach_create_delete_step {c : Int} {n : Nat} (hc : inInt32 c)
    (h : StoreReach { users := ∅, nextID := c } n) :
    StoreReach { users := ∅, nextID := wrapInt32 (c + 1) } (n + 1) := by
  have h1 := StoreReach.create { Uid := 0, Name := "a", Age := 0 } h (by decide) (by decide)
  rw [create_eq] at h1
  have h2 := StoreReach.delete c h1 hc
  have hl : (AList.insert c ({ Uid := c, Name := "a", Age := 0 } : User)
      (∅ : UserMap)).lookup c = some { Uid := c, Name := "a", Age := 0 } :=
    AList.lookup_insert _
  rw [delete_of_present hl] at h2
  simpa only [erase_insert_empty] using h2

theorem storeReach_create_delete (n : Nat) :
    StoreReach { users := ∅, nextID := wrapInt32 (1 + n) } n := by
  induction n with
  | zero => exact StoreReach.init
  | succ n ih =>
    have h := storeReach_create_delete_step (wrapInt32_inInt32 _) ih
    rw [wrapInt32_succ_wrapInt32] at h
    have hn : (1 : Int) + ((n + 1 : Nat) : Int) = 1 + (n : Int) + 1 := by push_cast; ring
    rw [hn]
    exact h

/-- C8 (as amended): `Create` ignores the identifier of the record it is given: in every
store `r`, two records `u1` and `u2` with the same name and age give the same store and
the same returned record, whose identifier is the counter of `r` before the call. From
the new store the first `Create` returns the identifier 1, and in a store `s` reached by
`n` calls of `Create`, with `n` less than 2^31 - 1, the next `Create` returns the
identifier `n + 1`, one more than the `Create` before it returned. -/
theorem create_ignores_identifier (r : UserRepository) (u1 u2 : User)
    (hname : u1.Name = u2.Name) (hage : u1.Age = u2.Age)
    (s : UserRepository) (n : Nat) (hs : StoreReach s n) (hn : n < 2147483647) (u : User) :
    r.Create u1 = r.Create u2 ∧
      (r.Create u1).2 = (some { Uid := r.nextID, Name := u1.Name, Age := u1.Age }, none) ∧
      (NewUserRepository.Create u).2 = (some { Uid := 1, Name := u.Name, Age := u.Age }, none) ∧
      (s.Create u).2 = (some { Uid := (n : Int) + 1, Name := u.Name, Age := u.Age }, none) := by
  refine ⟨?_, rfl, rfl, ?_⟩
  · rw [create_eq, create_eq, hname, hage]
  · have hc : s.nextID = (n : Int) + 1 := by
      rw [storeReach_counter hs, wrapInt32_eq_self ⟨by omega, by omega⟩]
      ring
    rw [create_eq, hc]

/-- C8 (witness): the store after one `Create`, where the next `Create` returns 2. -/
theorem create_ignores_identifier_witness :
    (UserRepository.Create
        { users := AList.singleton 1 { Uid := 1, Name := "alice", Age := 30 }, nextID := 2 }
        { Uid := 77, Name := "bob", Age := 25 }).2 =
      (some { Uid := ((1 : Nat) : Int) + 1, Name := "bob", Age := 25 }, none) :=
  (create_ignores_identifier NewUserRepository { Uid := 5, Name := "carol", Age := 41 }
    { Uid := -3, Name := "carol", Age := 41 } rfl rfl
    { users := AList.singleton 1 { Uid := 1, Name := "alice", Age := 30 }, nextID := 2 } 1
    (StoreReach.create { Uid := 0, Name := "alice", Age := 30 } StoreReach.init
      (by decide) (by decide))
    (by decide) { Uid := 77, Name := "bob", Age := 25 }).2.2.2

/-- C8 (counterexample): the empty store whose counter stands at 2147483647 is reached
from the new store by 2147483646 rounds of `Create` and `Delete`. There a `Create` returns
the identifier 2147483647, and the `Create` after it returns -2147483648, which is not the
previous identifier plus 1. -/
theorem create_increment_counterexample :
    StoreReach { users := ∅, nextID := 2147483647 } 2147483646 ∧
      (UserRepository.Create { users := ∅, nextID := 2147483647 }
        { Uid := 0, Name := "a", Age := 0 }).2 =
          (some { Uid := 2147483647, Name := "a", Age := 0 }, none) ∧
      (UserRepository.Create
        (UserRepository.Create { users := ∅, nextID := 2147483647 }
          { Uid := 0, Name := "a", Age := 0 }).1
        { Uid := 0, Name := "b", Age := 0 }).2 =
          (some { Uid := -2147483648, Name := "b", Age := 0 }, none) ∧
      (-2147483648 : Int) ≠ 2147483647 + 1 := by
  refine ⟨?_, by decide, by decide, by decide⟩
  have h := storeReach_create_delete 2147483646
  have hw : wrapInt32 (1 + ((2147483646 : Nat) : Int)) = 2147483647 := by decide
  rw [hw] at h
  exact h

/-! ## C9: `Update` of a stored identifier -/

/-- C9: for every store and every record `user` whose identifier is a key of the store,
`Update` returns no error and a record with the identifier, name and age of `user`;
in the store it leaves, `GetByID` with that identifier returns this same record, an
identifier is a key exactly when it was one before, the record under every other
identifier is what it was, and the counter is what it was. -/
theorem update_replaces_record (r : UserRepository) (user : User)
    (hkey : r.users.lookup user.Uid ≠ none) :
    (r.Update user).2 =
        (some { Uid := user.Uid, Name := user.Name, Age := user.Age }, none) ∧
      ((r.Update user).1.GetByID user.Uid).2 =
        (some { Uid := user.Uid, Name := user.Name, Age := user.Age }, none) ∧
      (∀ k, (r.Update user).1.users.lookup k ≠ none ↔ r.users.lookup k ≠ none) ∧
      (∀ k, k ≠ user.Uid → (r.Update user).1.users.lookup k = r.users.lookup k) ∧
      (r.Update user).1.nextID = r.nextID := by
  obtain ⟨v, hl⟩ := Option.ne_none_iff_exists'.1 hkey
  rw [update_of_present hl]
  refine ⟨rfl, ?_, ?_, ?_, rfl⟩
  · rw [getByID_of_present (AList.lookup_insert _)]
  · intro k
    by_cases hk : k = user.Uid
    · subst hk
      simp [AList.lookup_insert, hl]
    · simp [AList.lookup_insert_ne hk]
  · intro k hk
    exact AList.lookup_insert_ne hk

/-- C9 (witness): the store that holds `alice` under 1 and `bob` under 2, and a new
record for the identifier 1. -/
theorem update_replaces_record_witness :
    (UserRepository.Update
        { users := (AList.singleton 1 { Uid := 1, Name := "alice", Age := 30 }).insert 2
            { Uid := 2, Name := "bob", Age := 25 }, nextID := 3 }
        { Uid := 1, Name := "alice", Age := 31 }).2 =
      (some { Uid := 1, Name := "alice", Age := 31 }, none) :=
  (update_replaces_record
    { users := (AList.singleton 1 { Uid := 1, Name := "alice", Age := 30 }).insert 2
        { Uid := 2, Name := "bob", Age := 25 }, nextID := 3 }
    { Uid := 1, Name := "alice", Age := 31 } (by decide)).1

/-! ## C11: the end-to-end scenario -/

/-- C11: from the new store, whatever sequences the ranges of the three calls of
`CreateUser` yield (the stores they range over hold no record, the record of `alice`, and
the records of `alice` and `bob`), the calls `CreateUser("alice", 30)`,
`CreateUser("bob", 25)`, `GetUser(1)`, `UpdateUser(1, "alice", 31)`,
`CreateUser("alice", 40)`, `DeleteUser(2)`, `GetUser(2)` return, in order: the record
`{1, alice, 30}`; the record `{2, bob, 25}`; the record `{1, alice, 30}`; the record
`{1, alice, 31}`; the conflict error `user with name alice already exists`; no error; no
record and no error. -/
theorem end_to_end_scenario (it1 it2 it3 : UserSlice)
    (h1 : it1.Perm [])
    (h2 : it2.Perm [{ Uid := 1, Name := "alice", Age := 30 }])
    (h3 : it3.Perm [{ Uid := 1, Name := "alice", Age := 31 }, { Uid := 2, Name := "bob", Age := 25 }]) :
    UserService.run NewUserRepository
        [.CreateUser it1 { Uid := 0, Name := "alice", Age := 30 },
          .CreateUser it2 { Uid := 0, Name := "bob", Age := 25 },
          .GetUser 1,
          .UpdateUser { Uid := 1, Name := "alice", Age := 31 },
          .CreateUser it3 { Uid := 0, Name := "alice", Age := 40 },
          .DeleteUser 2,
          .GetUser 2] =
      [.record (some { Uid := 1, Name := "alice", Age := 30 }) none,
        .record (some { Uid := 2, Name := "bob", Age := 25 }) none,
        .record (some { Uid := 1, Name := "alice", Age := 30 }) none,
        .record (some { Uid := 1, Name := "alice", Age := 31 }) none,
        .record none (some (.errorf "user with name alice already exists")),
        .done none,
        .record none none] ∧
      UserRepository.IsRange NewUserRepository it1 ∧
      UserRepository.IsRange
        (UserService.CreateUser NewUserRepository it1 { Uid := 0, Name := "alice", Age := 30 }).1
        it2 ∧
      UserRepository.IsRange
        (UserService.UpdateUser
          (UserService.CreateUser
            (UserService.CreateUser NewUserRepository it1
              { Uid := 0, Name := "alice", Age := 30 }).1
            it2 { Uid := 0, Name := "bob", Age := 25 }).1
          { Uid := 1, Name := "alice", Age := 31 }).1 it3 := by
  have e1 : it1 = [] := List.Perm.eq_nil h1
  have e2 : it2 = [{ Uid := 1, Name := "alice", Age := 30 }] := List.perm_singleton.1 h2
  subst e1 e2
  refine ⟨?_, List.Perm.refl _, List.Perm.refl _, h3⟩
  have hv : UserService.validateUser { Uid := 0, Name := "alice", Age := 40 } = none := by
    decide
  have hw : ∃ w, UserRepository.GetByName.loop
      ({ Uid := 0, Name := "alice", Age := 40 } : User).Name it3 = some w := by
    cases hl : UserRepository.GetByName.loop
        ({ Uid := 0, Name := "alice", Age := 40 } : User).Name it3 with
    | some w => exact ⟨w, rfl⟩
    | none =>
      exact absurd rfl (getByName_loop_eq_none.1 hl { Uid := 1, Name := "alice", Age := 31 }
        ((List.Perm.mem_iff h3).2 (by simp)))
  obtain ⟨w, hw⟩ := hw
  simp only [UserService.run, UserService.call]
  rw [createUser_of_conflict _ hv hw]
  decide

/-- C11 (witness): the ranges that visit the records in the order of their
identifiers. -/
theorem end_to_end_scenario_witness :
    UserService.run NewUserRepository
        [.CreateUser [] { Uid := 0, Name := "alice", Age := 30 },
          .CreateUser [{ Uid := 1, Name := "alice", Age := 30 }]
            { Uid := 0, Name := "bob", Age := 25 },
          .GetUser 1,
          .UpdateUser { Uid := 1, Name := "alice", Age := 31 },
          .CreateUser
            [{ Uid := 1, Name := "alice", Age := 31 }, { Uid := 2, Name := "bob", Age := 25 }]
            { Uid := 0, Name := "alice", Age := 40 },
          .DeleteUser 2,
          .GetUser 2] =
      [.record (some { Uid := 1, Name := "alice", Age := 30 }) none,
        .record (some { Uid := 2, Name := "bob", Age := 25 }) none,
        .record (some { Uid := 1, Name := "alice", Age := 30 }) none,
        .record (some { Uid := 1, Name := "alice", Age := 31 }) none,
        .record none (some (.errorf "user with name alice already exists")),
        .done none,
        .record none none] :=
  (end_to_end_scenario [] [{ Uid := 1, Name := "alice", Age := 30 }]
    [{ Uid := 1, Name := "alice", Age := 31 }, { Uid := 2, Name := "bob", Age := 25 }]
    (List.Perm.refl _) (List.Perm.refl _) (List.Perm.refl _)).1

/-! ## C12: the stored records pass the field checks -/

theorem createUser_cases_valid (r : UserRepository) (it : UserSlice) (user : User) :
    (UserService.validateUser user = none ∧ UserService.CreateUser r it user = r.Create user) ∨
      ∃ e, UserService.CreateUser r it user = (r, none, some e) := by
  cases h : UserService.validateUser user with
  | some e => exact Or.inr ⟨_, createUser_of_invalid r it h⟩
  | none =>
    cases hw : UserRepository.GetByName.loop user.Name it with
    | some w => exact Or.inr ⟨_, createUser_of_conflict r h hw⟩
    | none => exact Or.inl ⟨rfl, createUser_of_fresh r h hw⟩

theorem updateUser_cases_valid (r : UserRepository) (user : User) :
    (UserService.validateUser user = none ∧ (∃ v, r.users.lookup user.Uid = some v) ∧
        UserService.UpdateUser r user = r.Update user) ∨
      ∃ e, UserService.UpdateUser r user = (r, none, some e) := by
  cases h : r.users.lookup user.Uid with
  | none => exact Or.inr ⟨_, updateUser_of_absent h⟩
  | some v =>
    cases he : UserService.validateUser user with
    | some e => exact Or.inr ⟨_, updateUser_of_invalid h he⟩
    | none => exact Or.inl ⟨rfl, ⟨v, rfl⟩, updateUser_of_valid h he⟩

theorem lookup_insert_some {m : UserMap} {k k' : Int} {x v : User}
    (h : (m.insert k x).lookup k' = some v) : (k' = k ∧ v = x) ∨ m.lookup k' = some v := by
  by_cases hk : k' = k
  · subst hk
    rw [AList.lookup_insert] at h
    exact Or.inl ⟨rfl, (Option.some.inj h).symm⟩
  · rw [AList.lookup_insert_ne hk] at h
    exact Or.inr h

theorem lookup_erase_some {m : UserMap} {k k' : Int} {v : User}
    (h : (m.erase k).lookup k' = some v) : k' ≠ k ∧ m.lookup k' = some v := by
  by_cases hk : k' = k
  · subst hk
    rw [AList.lookup_erase] at h
    cases h
  · rw [AList.lookup_erase_ne hk] at h
    exact ⟨hk, h⟩

/-- Along every run of the service every stored record passes `validateUser`. -/
theorem serviceReach_valid {r : UserRepository} {ids : List Int} (h : ServiceReach r ids) :
    ∀ k v, r.users.lookup k = some v → UserService.validateUser v = none := by
  induction h with
  | init => intro k v hl; cases hl
  | get uid _ _ ih => rw [getUser_repo]; exact ih
  | list it limit offset _ _ _ _ ih => rw [listUsers_repo]; exact ih
  | @create r ids it user _ _ _ _ ih =>
    rcases createUser_cases_valid r it user with ⟨hv, hc⟩ | ⟨e, hc⟩
    · rw [hc, create_eq]
      intro k v hl
      rcases lookup_insert_some hl with ⟨_, rfl⟩ | hl'
      · exact hv
      · exact ih k v hl'
    · rw [hc]; exact ih
  | @update r ids user _ _ _ ih =>
    rcases updateUser_cases_valid r user with ⟨hv, ⟨w, hw⟩, hc⟩ | ⟨e, hc⟩
    · rw [hc, update_of_present hw]
      intro k v hl
      rcases lookup_insert_some hl with ⟨_, rfl⟩ | hl'
      · exact hv
      · exact ih k v hl'
    · rw [hc]; exact ih
  | @delete r ids uid _ _ ih =>
    cases hl : r.users.lookup uid with
    | none => rw [deleteUser_of_absent hl]; exact ih
    | some w =>
      rw [deleteUser_of_present hl, delete_of_present hl]
      intro k v hk
      exact ih k v (lookup_erase_some hk).2

/-- C12: in every store reached from the new store by calls of the service, every stored
record has an age between 0 and 150 inclusive and a name that is non-empty and at most
100 long. -/
theorem stored_records_valid (r : UserRepository) (ids : List Int) (hr : ServiceReach r ids)
    (v : User) (hv : v ∈ r.records) :
    0 ≤ v.Age ∧ v.Age ≤ 150 ∧ v.Name ≠ "" ∧ len v.Name ≤ 100 := by
  obtain ⟨k, hk⟩ := mem_records_iff.1 hv
  obtain ⟨h1, h2, h3, h4⟩ := validateUser_eq_none.1 (serviceReach_valid hr k v hk)
  exact ⟨h3, h4, h1, h2⟩

/-- C12 (witness): the record of `bob` in the store reached by `CreateUser("alice", 30)`,
`CreateUser("bob", 25)` and `UpdateUser(1, "bob", 30)`. -/
theorem stored_records_valid_witness :
    (0 : Int) ≤ 25 ∧ (25 : Int) ≤ 150 ∧ "bob" ≠ "" ∧ len "bob" ≤ 100 :=
  stored_records_valid
    (UserService.UpdateUser
      (UserService.CreateUser
        (UserService.CreateUser NewUserRepository [] { Uid := 0, Name := "alice", Age := 30 }).1
        [{ Uid := 1, Name := "alice", Age := 30 }] { Uid := 0, Name := "bob", Age := 25 }).1
      { Uid := 1, Name := "bob", Age := 30 }).1 [2, 1]
    (ServiceReach.update { Uid := 1, Name := "bob", Age := 30 }
      (ServiceReach.create [{ Uid := 1, Name := "alice", Age := 30 }]
        { Uid := 0, Name := "bob", Age := 25 }
        (ServiceReach.create [] { Uid := 0, Name := "alice", Age := 30 } ServiceReach.init
          (List.Perm.refl _) (by decide) (by decide))
        (List.Perm.refl _) (by decide) (by decide))
      (by decide) (by decide))
    { Uid := 2, Name := "bob", Age := 25 } (by decide)

/-! ## C13: `Get` of the handler -/

theorem handler_get_cases {σ : Type} (svc : UserServiceInterface σ) (s : σ) (req : User) :
    (UserHandler.Get svc s req).2 =
        .returns none (some (status.Error .InvalidArgument "invalid user id")) ∨
      (UserHandler.Get svc s req).2 =
        .returns none (some (status.Error .Internal "failed to get user")) ∨
      (UserHandler.Get svc s req).2 =
        .returns none (some (status.Error .NotFound "user not found")) ∨
      ∃ user, (UserHandler.Get svc s req).2 = .returns (some user) none := by
  unfold UserHandler.Get
  split_ifs with h
  · exact Or.inl rfl
  · split
    · exact Or.inr (Or.inl rfl)
    · exact Or.inr (Or.inr (Or.inl rfl))
    · exact Or.inr (Or.inr (Or.inr ⟨_, rfl⟩))

/-- C13: for every store and every request with a positive identifier, `Get` of the
handler over the service returns the stored record, and no error, when the store holds a
record under that identifier, and it returns no record and the status error `NotFound`
when the store holds none; the store is left as it was. And whatever the service behind
the handler and whatever the request, `Get` never returns with no record and no error. -/
theorem handler_get (r : UserRepository) (it : UserSlice) (req : User) (hpos : 0 < req.Uid)
    {σ : Type} (svc : UserServiceInterface σ) (s : σ) (req' : User) :
    (∀ v, r.users.lookup req.Uid = some v →
        UserHandler.Get (NewUserService it) r req = (r, .returns (some v) none)) ∧
      (r.users.lookup req.Uid = none →
        UserHandler.Get (NewUserService it) r req =
          (r, .returns none (some (status.Error .NotFound "user not found")))) ∧
      (UserHandler.Get svc s req').2 ≠ .returns none none := by
  have hn : ¬ req.Uid ≤ 0 := by omega
  refine ⟨?_, ?_, ?_⟩
  · intro v hv
    simp [UserHandler.Get, hn, NewUserService, UserService.GetUser, getByID_of_present hv]
  · intro hv
    simp [UserHandler.Get, hn, NewUserService, UserService.GetUser, getByID_of_absent hv]
  · rcases handler_get_cases svc s req' with h | h | h | ⟨user, h⟩ <;> rw [h] <;> simp

/-- C13 (witness): the identifier 1 in the store that holds `alice` under it. -/
theorem handler_get_witness :
    UserHandler.Get (NewUserService [])
        { users := AList.singleton 1 { Uid := 1, Name := "alice", Age := 30 }, nextID := 2 }
        { Uid := 1, Name := "", Age := 0 } =
      ({ users := AList.singleton 1 { Uid := 1, Name := "alice", Age := 30 }, nextID := 2 },
        .returns (some { Uid := 1, Name := "alice", Age := 30 }) none) :=
  (handler_get
    { users := AList.singleton 1 { Uid := 1, Name := "alice", Age := 30 }, nextID := 2 } []
    { Uid := 1, Name := "", Age := 0 } (by decide) (NewUserService []) NewUserRepository
    { Uid := 0, Name := "", Age := 0 }).1 { Uid := 1, Name := "alice", Age := 30 } (by decide)

/-! ## C14: the structural checks of the handler -/

/-- C14: whatever the service behind the handler and whatever its state, `Get` and
`UpdateUser` of a request whose identifier is zero or negative return no record and the
status error `InvalidArgument`, and so does `CreateUser` of a request whose name is empty;
the result does not depend on the service, which is not called, and the state is the state
the handler found. -/
theorem handler_rejects_malformed {σ : Type} (svc : UserServiceInterface σ) (s : σ)
    (req1 req2 : User) (hid : req1.Uid ≤ 0) (hname : req2.Name = "") :
    UserHandler.Get svc s req1 =
        (s, .returns none (some (status.Error .InvalidArgument "invalid user id"))) ∧
      UserHandler.UpdateUser svc s req1 =
        (s, .returns none (some (status.Error .InvalidArgument "invalid user id"))) ∧
      UserHandler.CreateUser svc s req2 =
        (s, .returns none (some (status.Error .InvalidArgument "name is required"))) := by
  refine ⟨?_, ?_, ?_⟩
  · simp [UserHandler.Get, hid]
  · simp [UserHandler.UpdateUser, hid]
  · simp [UserHandler.CreateUser, hname]

/-- C14 (witness): the identifier 0 and the empty name, over the service on the store that
holds `alice`. -/
theorem handler_rejects_malformed_witness :
    UserHandler.UpdateUser (NewUserService [{ Uid := 1, Name := "alice", Age := 30 }])
        { users := AList.singleton 1 { Uid := 1, Name := "alice", Age := 30 }, nextID := 2 }
        { Uid := 0, Name := "bob", Age := 25 } =
      ({ users := AList.singleton 1 { Uid := 1, Name := "alice", Age := 30 }, nextID := 2 },
        .returns none (some (status.Error .InvalidArgument "invalid user id"))) :=
  (handler_rejects_malformed (NewUserService [{ Uid := 1, Name := "alice", Age := 30 }])
    { users := AList.singleton 1 { Uid := 1, Name := "alice", Age := 30 }, nextID := 2 }
    { Uid := 0, Name := "bob", Age := 25 } { Uid := 0, Name := "", Age := 25 }
    (by decide) (by decide)).2.1

/-! ## C15: how the handler classifies the errors of the service -/

theorem handler_createUser_of_error {σ : Type} (svc : UserServiceInterface σ) (s : σ)
    {req : User} (hname : req.Name ≠ "") {e : GoError}
    (he : (svc.CreateUser s req).2.2 = some e) :
    UserHandler.CreateUser svc s req =
      ((svc.CreateUser s req).1,
        .returns none (some (status.Error .Internal "failed to create user"))) := by
  unfold UserHandler.CreateUser
  rw [if_neg hname]
  split <;> simp_all

theorem handler_updateUser_of_error {σ : Type} (svc : UserServiceInterface σ) (s : σ)
    {req : User} (hid : 0 < req.Uid) {e : GoError}
    (he : (svc.UpdateUser s req).2.2 = some e) :
    UserHandler.UpdateUser svc s req =
      ((svc.UpdateUser s req).1,
        .returns none (some (status.Error .Internal "failed to update user"))) := by
  have hn : ¬ req.Uid ≤ 0 := by omega
  unfold UserHandler.UpdateUser
  rw [if_neg hn]
  split <;> simp_all

/-- C15 (as amended): whatever the service behind the handler and whatever its state: for
every `CreateUser` request with a non-empty name that the service rejects with an error,
and for every `UpdateUser` request with a positive identifier that the service rejects
with an error, be the error a validation error or any other, the handler returns no record
and the status error `Internal` with the fixed message of the operation, in the state the
service left; and over every service and state, `CreateUser` and `UpdateUser` of the
handler return a status error `InvalidArgument` only for a request that fails their own
structural check. -/
theorem handler_maps_service_errors_to_internal {σ τ : Type}
    (svc1 : UserServiceInterface σ) (s1 : σ) (req1 : User) (hname : req1.Name ≠ "")
    (e1 : GoError) (h1 : (svc1.CreateUser s1 req1).2.2 = some e1)
    (svc2 : UserServiceInterface τ) (s2 : τ) (req2 : User) (hid : 0 < req2.Uid)
    (e2 : GoError) (h2 : (svc2.UpdateUser s2 req2).2.2 = some e2) :
    UserHandler.CreateUser svc1 s1 req1 =
        ((svc1.CreateUser s1 req1).1,
          .returns none (some (status.Error .Internal "failed to create user"))) ∧
      UserHandler.UpdateUser svc2 s2 req2 =
        ((svc2.UpdateUser s2 req2).1,
          .returns none (some (status.Error .Internal "failed to update user"))) ∧
      (∀ (υ : Type) (svc : UserServiceInterface υ) (s : υ) (req : User) (resp : Option User)
          (st : Status),
        (UserHandler.CreateUser svc s req).2 = .returns resp (some (.status st)) →
        st.code = .InvalidArgument → req.Name = "") ∧
      (∀ (υ : Type) (svc : UserServiceInterface υ) (s : υ) (req : User) (resp : Option User)
          (st : Status),
        (UserHandler.UpdateUser svc s req).2 = .returns resp (some (.status st)) →
        st.code = .InvalidArgument → req.Uid ≤ 0) := by
  refine ⟨handler_createUser_of_error svc1 s1 hname h1,
    handler_updateUser_of_error svc2 s2 hid h2, ?_, ?_⟩
  · intro υ svc s req resp st h hc
    by_contra hne
    unfold UserHandler.CreateUser at h
    rw [if_neg hne] at h
    split at h <;> simp [status.Error] at h
    rw [← h.2] at hc
    cases hc
  · intro υ svc s req resp st h hc
    by_contra hne
    unfold UserHandler.UpdateUser at h
    rw [if_neg hne] at h
    split at h <;> simp [status.Error] at h
    rw [← h.2] at hc
    cases hc

/-- C15 (witness): on the store that holds `alice` under 1, the request to create
`alice` with the age 200 and no identifier, which the service rejects with a validation
error, and the request to update the identifier 7, which the service does not find. -/
theorem handler_maps_service_errors_to_internal_witness :
    UserHandler.CreateUser (NewUserService [{ Uid := 1, Name := "alice", Age := 30 }])
        { users := AList.singleton 1 { Uid := 1, Name := "alice", Age := 30 }, nextID := 2 }
        { Uid := 0, Name := "alice", Age := 200 } =
      ((UserService.CreateUser
          { users := AList.singleton 1 { Uid := 1, Name := "alice", Age := 30 }, nextID := 2 }
          [{ Uid := 1, Name := "alice", Age := 30 }] { Uid := 0, Name := "alice", Age := 200 }).1,
        .returns none (some (status.Error .Internal "failed to create user"))) ∧
      UserHandler.UpdateUser (NewUserService []) NewUserRepository
          { Uid := 7, Name := "bob", Age := 25 } =
        ((UserService.UpdateUser NewUserRepository { Uid := 7, Name := "bob", Age := 25 }).1,
          .returns none (some (status.Error .Internal "failed to update user"))) :=
  have h := handler_maps_service_errors_to_internal
    (NewUserService [{ Uid := 1, Name := "alice", Age := 30 }])
    { users := AList.singleton 1 { Uid := 1, Name := "alice", Age := 30 }, nextID := 2 }
    { Uid := 0, Name := "alice", Age := 200 } (by decide)
    (.wrapf "user validation failed: " (.errorf "invalid age")) (by decide)
    (NewUserService []) NewUserRepository
    { Uid := 7, Name := "bob", Age := 25 } (by decide)
    (.errorf "user not found") (by decide)
  ⟨h.1, h.2.1⟩

/-- C15 (counterexample): on the new store the request to create `alice` with the age 200
passes the structural check of the handler, the service rejects it with a validation
error, and the handler returns the status error `Internal`, not `InvalidArgument`. -/
theorem handler_validation_error_counterexample :
    ({ Uid := 0, Name := "alice", Age := 200 } : User).Name ≠ "" ∧
      UserService.CreateUser NewUserRepository [] { Uid := 0, Name := "alice", Age := 200 } =
        (NewUserRepository, none,
          some (.wrapf "user validation failed: " (.errorf "invalid age"))) ∧
      (GoError.wrapf "user validation failed: " (.errorf "invalid age")).IsValidation ∧
      UserHandler.CreateUser (NewUserService []) NewUserRepository
          { Uid := 0, Name := "alice", Age := 200 } =
        (NewUserRepository,
          .returns none (some (.status { code := .Internal, message := "failed to create user" })))
      ∧ Code.Internal ≠ Code.InvalidArgument := by
  refine ⟨by decide, by decide, ⟨_, rfl⟩, by decide, by decide⟩

/-! ## C16: the message of an internal error -/

theorem handler_internal_message {σ : Type} (op : HandlerOp) (svc : UserServiceInterface σ)
    (s : σ) (req : User) {resp : Option User} {st : Status}
    (h : (UserHandler.invoke op svc s req).2 = .returns resp (some (.status st)))
    (hc : st.code = .Internal) :
    st.message = UserHandler.internalMessage op := by
  cases op
  · simp only [UserHandler.invoke, UserHandler.Get] at h
    split_ifs at h
    · simp [status.Error] at h
      rw [← h.2] at hc
      cases hc
    · split at h <;> simp [status.Error] at h
      · rw [← h.2]
        rfl
      · rw [← h.2] at hc
        cases hc
  · simp only [UserHandler.invoke, UserHandler.CreateUser] at h
    split_ifs at h
    · simp [status.Error] at h
      rw [← h.2] at hc
      cases hc
    · split at h <;> simp [status.Error] at h
      rw [← h.2]
      rfl
  · simp only [UserHandler.invoke, UserHandler.UpdateUser] at h
    split_ifs at h
    · simp [status.Error] at h
      rw [← h.2] at hc
      cases hc
    · split at h <;> simp [status.Error] at h
      rw [← h.2]
      rfl

/-- C16: for each operation of the handler, whatever the services behind it, their states
and the requests, two calls that both return a status error `Internal` return it with the
same message, the fixed message of the operation: `failed to get user`,
`failed to create user` or `failed to update user`. -/
theorem handler_internal_message_fixed (op : HandlerOp) {σ τ : Type}
    (svc : UserServiceInterface σ) (s : σ) (req : User)
    (svc' : UserServiceInterface τ) (s' : τ) (req' : User)
    (resp resp' : Option User) (st st' : Status)
    (h : (UserHandler.invoke op svc s req).2 = .returns resp (some (.status st)))
    (hc : st.code = .Internal)
    (h' : (UserHandler.invoke op svc' s' req').2 = .returns resp' (some (.status st')))
    (hc' : st'.code = .Internal) :
    st.message = st'.message ∧ st.message = UserHandler.internalMessage op := by
  have e := handler_internal_message op svc s req h hc
  have e' := handler_internal_message op svc' s' req' h' hc'
  exact ⟨e.trans e'.symm, e⟩

/-- C16 (witness): `CreateUser` of a record with the age 200, and of a second record named
`alice`; the service rejects the two with different errors. -/
theorem handler_internal_message_fixed_witness :
    "failed to create user" = "failed to create user" ∧
      "failed to create user" = UserHandler.internalMessage .CreateUser :=
  handler_internal_message_fixed .CreateUser
    (NewUserService []) NewUserRepository { Uid := 0, Name := "carol", Age := 200 }
    (NewUserService [{ Uid := 1, Name := "alice", Age := 30 }])
    { users := AList.singleton 1 { Uid := 1, Name := "alice", Age := 30 }, nextID := 2 }
    { Uid := 0, Name := "alice", Age := 40 }
    none none { code := .Internal, message := "failed to create user" }
    { code := .Internal, message := "failed to create user" }
    (by decide) rfl (by decide) rfl

/-! ## C17: the recovery interceptor -/

/-- C17: for every request and every wrapped call, whose execution either returns a
response and an error or panics: when the call panics, the recovery interceptor returns no
response and the status error `Internal`; when the call returns, the interceptor returns
the response and the error of the call; and the interceptor itself never panics. -/
theorem recoveryInterceptor_contains_faults {ρ α : Type} (req : ρ) (handler : ρ → Exec α) :
    (∀ payload, handler req = .panics payload →
        RecoveryInterceptor req handler =
          .returns none (some (.status { code := .Internal, message := "internal server error" })))
      ∧ (∀ resp err, handler req = .returns resp err →
        RecoveryInterceptor req handler = .returns resp err) ∧
      (∀ payload, RecoveryInterceptor req handler ≠ .panics payload) ∧
      ∃ resp err, RecoveryInterceptor req handler = .returns resp err := by
  refine ⟨?_, ?_, ?_, ?_⟩
  · intro payload h
    simp [RecoveryInterceptor, h, status.Error]
  · intro resp err h
    simp [RecoveryInterceptor, h]
  · intro payload
    unfold RecoveryInterceptor
    cases handler req <;> simp
  · unfold RecoveryInterceptor
    cases handler req <;> simp

/-! ## C19: `GetByID` of an identifier that is not stored -/

/-- C19: for every store and every identifier that is not a key of the store, `GetByID`
returns no record and no error and leaves the store, records and counter, as it found it;
and a second `GetByID` with the same identifier does the same. -/
theorem getByID_absent_idempotent (r : UserRepository) (uid : Int)
    (h : r.users.lookup uid = none) :
    r.GetByID uid = (r, none, none) ∧ (r.GetByID uid).1.GetByID uid = (r, none, none) := by
  rw [getByID_of_absent h]
  exact ⟨rfl, getByID_of_absent h⟩

/-- C19 (witness): the identifier 2 in the store that holds `alice` under 1. -/
theorem getByID_absent_idempotent_witness :
    UserRepository.GetByID
        (UserRepository.GetByID
          { users := AList.singleton 1 { Uid := 1, Name := "alice", Age := 30 }, nextID := 2 }
          2).1 2 =
      ({ users := AList.singleton 1 { Uid := 1, Name := "alice", Age := 30 }, nextID := 2 },
        none, none) :=
  (getByID_absent_idempotent
    { users := AList.singleton 1 { Uid := 1, Name := "alice", Age := 30 }, nextID := 2 } 2
    (by decide)).2

/-! ## C20: keys, identifiers and the counter -/

/-- Along every run of the store every entry holds a record whose identifier is its key,
and the key is one of the wrapped numbers `1, 2, ...` handed out so far. -/
theorem storeReach_keys {r : UserRepository} {n : Nat} (h : StoreReach r n) :
    ∀ k v, r.users.lookup k = some v →
      v.Uid = k ∧ ∃ j : Nat, j < n ∧ k = wrapInt32 (1 + j) := by
  induction h with
  | init => intro k v hl; cases hl
  | @create r n user hr _ _ ih =>
    rw [create_eq]
    intro k v hl
    rcases lookup_insert_some hl with ⟨hk, hv⟩ | hl'
    · subst hv
      exact ⟨hk.symm, n, by omega, hk.trans (storeReach_counter hr)⟩
    · obtain ⟨h1, j, hj, h2⟩ := ih k v hl'
      exact ⟨h1, j, by omega, h2⟩
  | @update r n user _ _ _ ih =>
    cases hw : r.users.lookup user.Uid with
    | none => rw [update_of_absent hw]; exact ih
    | some w =>
      rw [update_of_present hw]
      intro k v hl
      rcases lookup_insert_some hl with ⟨hk, hv⟩ | hl'
      · subst hv
        obtain ⟨_, j, hj, h2⟩ := ih user.Uid w hw
        exact ⟨hk.symm, j, hj, hk.trans h2⟩
      · exact ih k v hl'
  | @delete r n uid _ _ ih =>
    cases hw : r.users.lookup uid with
    | none => rw [delete_of_absent hw]; exact ih
    | some w =>
      rw [delete_of_present hw]
      intro k v hl
      exact ih k v (lookup_erase_some hl).2

/-- C20: in every store reached from the new store by calls of `Create`, `Update` and
`Delete` of which fewer than 2^31 - 1 are calls of `Create`, every entry of the map holds
a record whose identifier is the key of the entry, every key is at least 1 and below the
counter, and the counter is 1 plus the number of calls of `Create`. -/
theorem store_keys_below_counter (r : UserRepository) (n : Nat) (hr : StoreReach r n)
    (hn : n < 2147483647) :
    (∀ k v, r.users.lookup k = some v → v.Uid = k) ∧
      (∀ k, k ∈ r.users → 1 ≤ k ∧ k < r.nextID) ∧
      r.nextID = 1 + (n : Int) := by
  have hc : r.nextID = 1 + (n : Int) := by
    rw [storeReach_counter hr]
    exact wrapInt32_eq_self ⟨by omega, by omega⟩
  refine ⟨fun k v hl => (storeReach_keys hr k v hl).1, ?_, hc⟩
  intro k hk
  obtain ⟨v, hv⟩ := Option.isSome_iff_exists.1 (AList.lookup_isSome.2 hk)
  obtain ⟨_, j, hj, hkj⟩ := storeReach_keys hr k v hv
  have hw : wrapInt32 (1 + (j : Int)) = 1 + (j : Int) :=
    wrapInt32_eq_self ⟨by omega, by omega⟩
  omega

/-- C20 (witness): the store after `Create`, `Create`, `Delete(1)`, where the key 2 is
below the counter 3. -/
theorem store_keys_below_counter_witness :
    (UserRepository.Delete
        (UserRepository.Create
          (UserRepository.Create NewUserRepository { Uid := 0, Name := "alice", Age := 30 }).1
          { Uid := 0, Name := "bob", Age := 25 }).1 1).1.nextID = 1 + ((2 : Nat) : Int) :=
  (store_keys_below_counter _ 2
    (StoreReach.delete 1
      (StoreReach.create { Uid := 0, Name := "bob", Age := 25 }
        (StoreReach.create { Uid := 0, Name := "alice", Age := 30 } StoreReach.init
          (by decide) (by decide))
        (by decide) (by decide))
      (by decide))
    (by decide)).2.2

/-! ## C10: `Delete` of a stored identifier -/

theorem storeReach_of_steps {r0 r : UserRepository} {n k : Nat} (h0 : StoreReach r0 n)
    (h : StoreSteps r0 r k) : StoreReach r (n + k) := by
  induction h with
  | start => exact h0
  | create user _ h1 h2 ih => exact StoreReach.create user ih h1 h2
  | update user _ h1 h2 ih => exact StoreReach.update user ih h1 h2
  | delete uid _ h1 ih => exact StoreReach.delete uid ih h1

theorem erase_insert_of_not_mem {m : UserMap} {k : Int} (v : User) (h : k ∉ m) :
    (m.insert k v).erase k = m := by
  apply AList.ext
  have hk : k ∉ m.entries.keys := h
  simp [AList.erase, AList.insert_entries, List.kerase_cons_eq, List.kerase_of_not_mem_keys hk]

/-- Creating a record and deleting it again, in the store that holds one record under the
identifier 1 and whose counter is not 1, leaves that store with the counter moved one
step. -/
theorem storeReach_keep_one_step {c : Int} {n : Nat} (hc : inInt32 c) (hne : c ≠ 1)
    (h : StoreReach
      { users := AList.singleton 1 { Uid := 1, Name := "a", Age := 0 }, nextID := c } n) :
    StoreReach
      { users := AList.singleton 1 { Uid := 1, Name := "a", Age := 0 },
        nextID := wrapInt32 (c + 1) } (n + 1) := by
  have h1 := StoreReach.create { Uid := 0, Name := "b", Age := 0 } h (by decide) (by decide)
  rw [create_eq] at h1
  have h2 := StoreReach.delete c h1 hc
  have hl : (AList.insert c ({ Uid := c, Name := "b", Age := 0 } : User)
      (AList.singleton 1 ({ Uid := 1, Name := "a", Age := 0 } : User) : UserMap)).lookup c =
        some ({ Uid := c, Name := "b", Age := 0 } : User) :=
    AList.lookup_insert _
  have hm : c ∉ (AList.singleton 1 ({ Uid := 1, Name := "a", Age := 0 } : User) : UserMap) := by
    rw [AList.mem_keys, AList.keys_singleton]
    simpa using hne
  rw [delete_of_present hl] at h2
  simpa only [erase_insert_of_not_mem _ hm] using h2

theorem storeReach_keep_one (j : Nat) (hj : j ≤ 4294967295) :
    StoreReach
      { users := AList.singleton 1 { Uid := 1, Name := "a", Age := 0 },
        nextID := wrapInt32 (2 + j) } (1 + j) := by
  induction j with
  | zero =>
    exact StoreReach.create { Uid := 0, Name := "a", Age := 0 } StoreReach.init
      (by decide) (by decide)
  | succ j ih =>
    have hne : wrapInt32 (2 + (j : Int)) ≠ 1 := by
      unfold wrapInt32
      omega
    have h := storeReach_keep_one_step (wrapInt32_inInt32 _) hne (ih (by omega))
    rw [wrapInt32_succ_wrapInt32] at h
    have hn : (2 : Int) + ((j + 1 : Nat) : Int) = 2 + (j : Int) + 1 := by push_cast; ring
    rw [hn]
    exact h

/-- C10 (as amended): for every store `r` and every identifier `uid` that is a key of it,
`Delete` returns no error, and so does `DeleteUser`, which leaves the same store; in that
store `GetByID uid` returns no record and no error, the record under every other identifier
is what it was, and the counter is what it was, so that the next `Create` returns the
record it would have returned without the deletion. And in a store `s` reached from the new
store by `n` calls of `Create`, after `Delete` of a key `sid` of `s` and `k` further calls
of `Create` among any calls of `Create`, `Update` and `Delete`, as long as `n + k` is less
than 2^31 - 1, the next `Create` returns the identifier `n + k + 1`, which is above `sid`:
the deleted identifier is not handed out again before the counter wraps. -/
theorem delete_removes_record (r : UserRepository) (uid : Int)
    (hkey : r.users.lookup uid ≠ none) (u : User)
    (s : UserRepository) (n : Nat) (hs : StoreReach s n) (sid : Int)
    (hsid : s.users.lookup sid ≠ none)
    (s' : UserRepository) (k : Nat) (hsteps : StoreSteps (s.Delete sid).1 s' k)
    (hn : n + k < 2147483647) :
    (r.Delete uid).2 = none ∧
      UserService.DeleteUser r uid = r.Delete uid ∧
      (r.Delete uid).1.GetByID uid = ((r.Delete uid).1, none, none) ∧
      (∀ i, i ≠ uid → (r.Delete uid).1.users.lookup i = r.users.lookup i) ∧
      (r.Delete uid).1.nextID = r.nextID ∧
      ((r.Delete uid).1.Create u).2 = (r.Create u).2 ∧
      (s'.Create u).2 =
        (some { Uid := (n : Int) + (k : Int) + 1, Name := u.Name, Age := u.Age }, none) ∧
      sid < (n : Int) + (k : Int) + 1 := by
  obtain ⟨v, hl⟩ := Option.ne_none_iff_exists'.1 hkey
  obtain ⟨w, hw⟩ := Option.ne_none_iff_exists'.1 hsid
  obtain ⟨_, j, hj, hsj⟩ := storeReach_keys hs sid w hw
  have hwj : wrapInt32 (1 + (j : Int)) = 1 + (j : Int) :=
    wrapInt32_eq_self ⟨by omega, by omega⟩
  have hd : StoreReach (s.Delete sid).1 n :=
    StoreReach.delete sid hs (hsj ▸ wrapInt32_inInt32 _)
  have hs' : StoreReach s' (n + k) := storeReach_of_steps hd hsteps
  have hc : s'.nextID = (n : Int) + (k : Int) + 1 := by
    rw [storeReach_counter hs', wrapInt32_eq_self ⟨by omega, by omega⟩]
    push_cast
    ring
  rw [deleteUser_of_present hl, delete_of_present hl]
  refine ⟨rfl, rfl, ?_, ?_, rfl, rfl, ?_, by omega⟩
  · exact getByID_of_absent (AList.lookup_erase _ _)
  · intro i hi
    exact AList.lookup_erase_ne hi
  · rw [create_eq, hc]

/-- C10 (witness): the store that holds `alice` under 1 and `bob` under 2; `bob` is
deleted, `carol` is created, and the `Create` after that returns the identifier 4. -/
theorem delete_removes_record_witness :
    (UserRepository.Create
        (UserRepository.Create
          (UserRepository.Delete
            (UserRepository.Create
              (UserRepository.Create NewUserRepository
                { Uid := 0, Name := "alice", Age := 30 }).1
              { Uid := 0, Name := "bob", Age := 25 }).1 2).1
          { Uid := 0, Name := "carol", Age := 41 }).1
        { Uid := 0, Name := "dave", Age := 52 }).2 =
      (some { Uid := ((2 : Nat) : Int) + ((1 : Nat) : Int) + 1, Name := "dave", Age := 52 },
        none) ∧
      (2 : Int) < ((2 : Nat) : Int) + ((1 : Nat) : Int) + 1 :=
  (delete_removes_record
    (UserRepository.Create
      (UserRepository.Create NewUserRepository { Uid := 0, Name := "alice", Age := 30 }).1
      { Uid := 0, Name := "bob", Age := 25 }).1 2 (by decide)
    { Uid := 0, Name := "dave", Age := 52 }
    (UserRepository.Create
      (UserRepository.Create NewUserRepository { Uid := 0, Name := "alice", Age := 30 }).1
      { Uid := 0, Name := "bob", Age := 25 }).1 2
    (StoreReach.create { Uid := 0, Name := "bob", Age := 25 }
      (StoreReach.create { Uid := 0, Name := "alice", Age := 30 } StoreReach.init
        (by decide) (by decide))
      (by decide) (by decide))
    2 (by decide) _ 1
    (StoreSteps.create { Uid := 0, Name := "carol", Age := 41 } StoreSteps.start
      (by decide) (by decide))
    (by decide)).2.2.2.2.2.2

/-- C10 (counterexample): the store that holds the record `a` under the identifier 1 and
whose counter stands at 1 again is reached from the new store by 4294967296 calls of
`Create` (the first creates `a`, every other one is followed by the `Delete` of its
record). There `Delete` of the key 1 returns no error and leaves the counter at 1, and the
next `Create` returns the deleted identifier 1. The same happens in the store that holds a
record under the key 5 with the counter at 5. -/
theorem delete_identifier_reused_counterexample :
    StoreReach
        { users := AList.singleton 1 { Uid := 1, Name := "a", Age := 0 }, nextID := 1 }
        4294967296 ∧
      UserRepository.Delete
          { users := AList.singleton 1 { Uid := 1, Name := "a", Age := 0 }, nextID := 1 } 1 =
        ({ users := ∅, nextID := 1 }, none) ∧
      (UserRepository.Create { users := ∅, nextID := 1 } { Uid := 0, Name := "b", Age := 0 }).2 =
        (some { Uid := 1, Name := "b", Age := 0 }, none) ∧
      UserRepository.Delete
          { users := AList.singleton 5 { Uid := 5, Name := "x", Age := 0 }, nextID := 5 } 5 =
        ({ users := ∅, nextID := 5 }, none) ∧
      (UserRepository.Create { users := ∅, nextID := 5 } { Uid := 0, Name := "y", Age := 0 }).2 =
        (some { Uid := 5, Name := "y", Age := 0 }, none) := by
  refine ⟨?_, by decide, by decide, by decide, by decide⟩
  have h := storeReach_keep_one 4294967295 (le_refl _)
  have hw : wrapInt32 (2 + ((4294967295 : Nat) : Int)) = 1 := by decide
  rw [hw] at h
  exact h

end Test2
